import Mathlib

/-!
Sugi Parfume backend: the recommendation engine.

A shallow embedding of `src/AIRecommendationService.js` and theorems about it.

Modelling conventions

* JavaScript numbers are `JsNum`: a finite double, idealised as an exact rational
  (no rounding, no overflow, no infinities), or `NaN`.
* Catalog items are well-formed: every numeric field is a finite number and every
  note, season and occasion is a string.
* A preference query is `Option Preferences`; `none` is a `null`/`undefined` query.
  Its `season`, `occasion` and `priceRange` fields hold any scalar `JsVal`; its
  `favoriteNotes` field is absent, an array of scalar values, or a truthy value that is
  no array; its `intensity` is absent, a finite number, or an object that cannot be
  converted to a number. The profile store keeps queries as they arrive, so the last
  two kinds of value can sit in a stored history.
* A thrown exception is `Except.error`; mutations made before the throw persist,
  so stateful operations return the new service state next to the result.
* `Math.random()` is an oracle `rnd : Nat → ℚ`; `rnd k` is the value of the `k`-th
  draw of the request. `new Date()` is a clock value `now : Nat`.
* `Array.prototype.sort` is a stable insertion sort driven by the sign of the
  comparator (`NaN` counts as `0`), which is the ECMAScript result for every
  consistent comparator.
* `toLowerCase` lowers the ASCII letters only.
-/

namespace Sugi

/-! ## JavaScript numbers -/

/-- A JavaScript number: `NaN` or a finite value. -/
inductive JsNum where
  | nan : JsNum
  | fin (q : ℚ) : JsNum
  deriving DecidableEq

namespace JsNum

/-- Binary `+`. -/
def add : JsNum → JsNum → JsNum
  | fin a, fin b => fin (a + b)
  | _, _ => nan

/-- Binary `-`. -/
def sub : JsNum → JsNum → JsNum
  | fin a, fin b => fin (a - b)
  | _, _ => nan

/-- Binary `*`. -/
def mul : JsNum → JsNum → JsNum
  | fin a, fin b => fin (a * b)
  | _, _ => nan

/-- Binary `/`. `0 / 0` is `NaN`. A non-zero dividend over `0` is an infinity in
JavaScript, which lies outside this number model and is rendered as `nan`; no division
of the embedded code reaches that case (see `commonNotes_zero_of_max_zero`). -/
def div : JsNum → JsNum → JsNum
  | fin a, fin b => if b = 0 then nan else fin (a / b)
  | _, _ => nan

/-- Function `Math.abs`. -/
def abs : JsNum → JsNum
  | fin a => fin |a|
  | nan => nan

/-- Function `Math.max` on two arguments; `NaN` if either is `NaN`. -/
def max : JsNum → JsNum → JsNum
  | fin a, fin b => fin (Max.max a b)
  | _, _ => nan

/-- Function `Math.min` on two arguments; `NaN` if either is `NaN`. -/
def min : JsNum → JsNum → JsNum
  | fin a, fin b => fin (Min.min a b)
  | _, _ => nan

/-- Comparison `a > b`; false when either side is `NaN`. -/
def gt : JsNum → JsNum → Bool
  | fin a, fin b => decide (b < a)
  | _, _ => false

/-- Comparison `a >= b`; false when either side is `NaN`. -/
def ge : JsNum → JsNum → Bool
  | fin a, fin b => decide (b ≤ a)
  | _, _ => false

/-- Comparison `a <= b`; false when either side is `NaN`. -/
def le : JsNum → JsNum → Bool
  | fin a, fin b => decide (a ≤ b)
  | _, _ => false

/-- The number lies in the closed interval `[lo, hi]` (so it is not `NaN`). -/
def within (lo hi : ℚ) : JsNum → Prop
  | fin a => lo ≤ a ∧ a ≤ hi
  | nan => False

instance (lo hi : ℚ) (x : JsNum) : Decidable (within lo hi x) := by
  cases x <;> unfold within <;> infer_instance

end JsNum

/-! ## JavaScript values and strings -/

/-- A scalar JavaScript value as it can arrive in a query field. `obj` is a plain
object (no methods of its own), identified by its reference. -/
inductive JsVal where
  | undefined : JsVal
  | null : JsVal
  | bool (b : Bool) : JsVal
  | num (q : ℚ) : JsVal
  | str (s : String) : JsVal
  | obj (ref : Nat) : JsVal
  deriving DecidableEq

/-- The only exception kind the engine can raise by itself. -/
inductive JsError where
  | typeError : JsError
  deriving DecidableEq

instance instDecidableEqExcept {α : Type} [DecidableEq α] : DecidableEq (Except JsError α)
  | .ok a, .ok b =>
    if h : a = b then isTrue (by rw [h]) else isFalse (fun h2 => h (Except.ok.inj h2))
  | .error a, .error b =>
    if h : a = b then isTrue (by rw [h]) else isFalse (fun h2 => h (Except.error.inj h2))
  | .ok _, .error _ => isFalse (fun h => by cases h)
  | .error _, .ok _ => isFalse (fun h => by cases h)

namespace JsVal

/-- Truthiness (`ToBoolean`). -/
def truthy : JsVal → Bool
  | undefined => false
  | null => false
  | bool b => b
  | num q => decide (q ≠ 0)
  | str s => decide (s ≠ "")
  | obj _ => true

/-- Strict equality `===`. Finite numbers, strings and booleans compare by value and
objects by reference, so it coincides with equality of the model values. -/
def strictEq (a b : JsVal) : Bool := decide (a = b)

/-- The method call `v.toLowerCase()`: defined on strings only, a `TypeError` on every
other value (property access on `undefined`/`null`, or calling a missing method). The
result lowers the ASCII letters. -/
def toLowerCase : JsVal → Except JsError String
  | str s => .ok ⟨s.data.map Char.toLower⟩
  | _ => .error .typeError

/-- Template-literal interpolation of a string value (only used on values whose
`toLowerCase()` call has succeeded, which are strings). -/
def interpolate : JsVal → String
  | str s => s
  | _ => ""

end JsVal

/-- Method `String.prototype.toLowerCase` on a string. -/
def strLower (s : String) : String := ⟨s.data.map Char.toLower⟩

/-- Method `String.prototype.includes`: `sub` occurs in `s` as a contiguous run. -/
def strIncludes (s sub : String) : Bool := decide (sub.data <:+: s.data)

/-- Replace the first blank of a character list by an underscore. -/
def replaceFirstBlank : List Char → List Char
  | [] => []
  | c :: cs => if c = ' ' then '_' :: cs else c :: replaceFirstBlank cs

/-- The call `s.replace(" ", "_")`: with a string pattern only the first occurrence is
replaced. -/
def strReplaceBlank (s : String) : String := ⟨replaceFirstBlank s.data⟩

/-- Method `Array.prototype.join` on strings. -/
def strJoin (sep : String) : List String → String
  | [] => ""
  | [a] => a
  | a :: b :: rest => a ++ sep ++ strJoin sep (b :: rest)

/-- The call `xs.slice(0, end)`: `undefined` keeps everything, a negative `end` counts
from the back, and the end is capped at the length. -/
def slice0 {α : Type} (xs : List α) : Option Int → List α
  | none => xs
  | some e => if e < 0 then xs.take (xs.length - e.natAbs) else xs.take e.toNat

/-- The call `xs.sort(cmp)`: stable; `a` stays in front of `b` unless `cmp(a, b) > 0`. -/
def jsSort {α : Type} (cmp : α → α → JsNum) (xs : List α) : List α :=
  xs.insertionSort (fun a b => (cmp a b).gt (.fin 0) = false)

/-- Map with a callback that may throw: the first exception aborts the traversal. -/
def mapE {α β : Type} (f : α → Except JsError β) : List α → Except JsError (List β)
  | [] => .ok []
  | a :: as =>
    match f a with
    | .error e => .error e
    | .ok b =>
      match mapE f as with
      | .error e => .error e
      | .ok bs => .ok (b :: bs)

/-- Method `Array.prototype.some` with a callback that may throw: stops at the first
`true` or at the first exception. -/
def someE {α : Type} (f : α → Except JsError Bool) : List α → Except JsError Bool
  | [] => .ok false
  | a :: as =>
    match f a with
    | .error e => .error e
    | .ok true => .ok true
    | .ok false => someE f as

/-- Method `Array.prototype.filter` with a callback that may throw. -/
def filterE {α : Type} (f : α → Except JsError Bool) : List α → Except JsError (List α)
  | [] => .ok []
  | a :: as =>
    match f a with
    | .error e => .error e
    | .ok keep =>
      match filterE f as with
      | .error e => .error e
      | .ok bs => .ok (if keep then a :: bs else bs)

/-! ## Data model -/

/-- The three-layer ingredient structure of a catalog item. -/
structure Ingredients where
  top : List String
  heart : List String
  base : List String
  deriving DecidableEq

/-- A catalog item, as built by `initializeFragranceDatabase`. -/
structure Fragrance where
  id : Nat
  name : String
  notes : List String
  intensity : ℚ
  longevity : ℚ
  sillage : ℚ
  season : List String
  occasion : List String
  price : ℚ
  popularity : ℚ
  reviews : ℚ
  ingredients : Ingredients
  deriving DecidableEq

/-- The `intensity` field of a query object. `absent` is `undefined` (no field). `num q`
is the finite number `q`; a `null` field is `num 0`, which it equals in every use
(`x - null` is `x - 0` and `null || 50` is `50`). `unconvertible` is an object without a
primitive value, such as `{valueOf: 1, toString: 1}`: it is truthy and every conversion
to a number throws a `TypeError`. -/
inductive JsIntensity where
  | absent : JsIntensity
  | num (q : ℚ) : JsIntensity
  | unconvertible : JsIntensity
  deriving DecidableEq

/-- The `favoriteNotes` field of a query object. `absent` is a falsy value (`undefined`,
`null`). `arr notes` is an array of scalar values. `nonArray` is a truthy value that has
none of the properties `length`, `filter` and `includes`, such as the number `5`. -/
inductive JsNotes where
  | absent : JsNotes
  | arr (notes : List JsVal) : JsNotes
  | nonArray : JsNotes
  deriving DecidableEq

/-- The elements of the favourite notes; no element when the field is no array. -/
def JsNotes.list : JsNotes → List JsVal
  | .arr notes => notes
  | _ => []

/-- A preference query object, as a request delivers it and as the profile store keeps
it. -/
structure Preferences where
  season : JsVal
  occasion : JsVal
  intensity : JsIntensity
  favoriteNotes : JsNotes
  priceRange : JsVal
  deriving DecidableEq

/-- The object `{}`: every field absent. It is what spreading `null` produces. -/
def Preferences.empty : Preferences :=
  ⟨.undefined, .undefined, .absent, .absent, .undefined⟩

/-- A stored history entry `{ ...preferences, timestamp: new Date() }`. -/
structure StoredPreference where
  prefs : Preferences
  timestamp : Nat
  deriving DecidableEq

/-- An entry of a profile's interaction log. -/
structure Interaction where
  fragranceId : JsVal
  type : JsVal
  rating : JsVal
  timestamp : Nat
  deriving DecidableEq

/-- A user profile `{ preferences, interactions, purchases }`. -/
structure UserProfile where
  preferences : List StoredPreference
  interactions : List Interaction
  purchases : List Nat
  deriving DecidableEq

/-- User identifiers (the keys of the profile `Map`). -/
abbrev UserId := Nat

/-- The profile `Map`, as its entries in insertion order. -/
abbrev ProfileStore := List (UserId × UserProfile)

/-- Method `Map.prototype.get`. -/
def ProfileStore.get (m : ProfileStore) (k : UserId) : Option UserProfile :=
  match m with
  | [] => none
  | (k1, v) :: rest => if k1 = k then some v else ProfileStore.get rest k

/-- Method `Map.prototype.set`: an existing key keeps its position, a new key goes last. -/
def ProfileStore.set (m : ProfileStore) (k : UserId) (v : UserProfile) : ProfileStore :=
  match m with
  | [] => [(k, v)]
  | (k1, v1) :: rest => if k1 = k then (k, v) :: rest else (k1, v1) :: ProfileStore.set rest k v

/-- A catalog item with its rule (or model) score: `{ ...fragrance, score, matchingFactors }`. -/
structure ScoredItem where
  fragrance : Fragrance
  score : JsNum
  matchingFactors : List String
  deriving DecidableEq

/-- A scored item after boosting: `{ ...rec, score, collaborativeBoost }`. -/
structure BoostedItem where
  fragrance : Fragrance
  score : JsNum
  matchingFactors : List String
  collaborativeBoost : ℚ
  deriving DecidableEq

/-- A delivered result. The fallback path sets no `collaborativeBoost`. -/
structure RankedResult where
  fragrance : Fragrance
  score : JsNum
  matchingFactors : List String
  collaborativeBoost : Option ℚ
  confidence : JsNum
  explanation : String
  deriving DecidableEq

/-- An entry of the list built by `findSimilarUsers`. -/
structure SimilarUser where
  userId : UserId
  similarity : JsNum
  deriving DecidableEq

/-- A loaded model: what `this.model.predict(input).data()` resolves to on a feature
vector, or the exception it raises. -/
structure Model where
  predict : List ℚ → Except JsError (List JsNum)

/-- The service object: the loaded model (if any), the profile store and the catalog. -/
structure Service where
  model : Option Model
  userProfiles : ProfileStore
  fragranceDatabase : List Fragrance

/-- The catalog built by `initializeFragranceDatabase`. -/
def initializeFragranceDatabase : List Fragrance :=
  [ { id := 1, name := "Sugi Classic",
      notes := ["cedar", "bergamot", "sandalwood", "citrus", "woody"],
      intensity := 65, longevity := 8, sillage := 7,
      season := ["spring", "fall"], occasion := ["daily", "work"],
      price := 180, popularity := 85 / 100, reviews := 46 / 10,
      ingredients := ⟨["bergamot", "yuzu", "pink_pepper"], ["japanese_cedar", "hinoki"],
        ["sandalwood", "vetiver"]⟩ },
    { id := 2, name := "Evening Elegance",
      notes := ["rose", "amber", "vanilla", "floral", "sweet"],
      intensity := 80, longevity := 10, sillage := 9,
      season := ["fall", "winter"], occasion := ["evening", "special_events"],
      price := 240, popularity := 78 / 100, reviews := 48 / 10,
      ingredients := ⟨["bergamot", "blackcurrant"], ["rose", "jasmine", "peony"],
        ["amber", "vanilla", "musk"]⟩ },
    { id := 3, name := "Fresh Breeze",
      notes := ["lemon", "lavender", "musk", "fresh", "citrus"],
      intensity := 45, longevity := 6, sillage := 5,
      season := ["spring", "summer"], occasion := ["daily", "sport"],
      price := 120, popularity := 92 / 100, reviews := 44 / 10,
      ingredients := ⟨["lemon", "lime", "mint"], ["lavender", "geranium"],
        ["white_musk", "cedar"]⟩ } ]

/-- The service right after construction, before any model has loaded. -/
def Service.initial : Service :=
  ⟨none, [], initializeFragranceDatabase⟩

/-! ## Rule scoring -/

/-- Season matching (weight 25): points and matching-factor strings. -/
def seasonFactor (p : Preferences) (fragrance : Fragrance) :
    Except JsError (ℚ × List String) :=
  if p.season.truthy then
    match p.season.toLowerCase with
    | .error e => .error e
    | .ok s =>
      if s ∈ fragrance.season then .ok (25, ["Perfect for " ++ p.season.interpolate])
      else .ok (0, [])
  else .ok (0, [])

/-- Occasion matching (weight 20): points and matching-factor strings. -/
def occasionFactor (p : Preferences) (fragrance : Fragrance) :
    Except JsError (ℚ × List String) :=
  if p.occasion.truthy then
    match p.occasion.toLowerCase with
    | .error e => .error e
    | .ok s =>
      if strReplaceBlank s ∈ fragrance.occasion then
        .ok (20, ["Ideal for " ++ p.occasion.interpolate])
      else .ok (0, [])
  else .ok (0, [])

/-- The number an intensity field takes as an operand of `-`: `NaN` when absent, a
`TypeError` when the object has no primitive value. -/
def intensityNum : JsIntensity → Except JsError JsNum
  | .num q => .ok (.fin q)
  | .absent => .ok .nan
  | .unconvertible => .error .typeError

/-- The value `Math.max(0, 15 - Math.abs(fragrance.intensity - preferences.intensity) / 10)`. -/
def intensityScore (p : Preferences) (fragrance : Fragrance) : Except JsError JsNum :=
  match intensityNum p.intensity with
  | .error e => .error e
  | .ok x =>
    let intensityDiff := JsNum.abs (JsNum.sub (.fin fragrance.intensity) x)
    .ok (JsNum.max (.fin 0) (JsNum.sub (.fin 15) (JsNum.div intensityDiff (.fin 10))))

/-- Intensity matching (weight 15): points and matching-factor strings. -/
def intensityFactor (p : Preferences) (fragrance : Fragrance) :
    Except JsError (JsNum × List String) :=
  match intensityScore p fragrance with
  | .error e => .error e
  | .ok s => .ok (s, if s.gt (.fin 10) then ["Perfect intensity level"] else [])

/-- The filter callback of the note matching: some favourite note contains the item note
or is contained in it, ignoring case. A favourite note that is not a string throws. -/
def noteMatches (favoriteNotes : List JsVal) (note : String) : Except JsError Bool :=
  someE (fun prefNote =>
    match prefNote.toLowerCase with
    | .error e => .error e
    | .ok pl => .ok (strIncludes (strLower note) pl || strIncludes pl (strLower note)))
    favoriteNotes

/-- Note matching (weight 30): points and matching-factor strings. The guard
`preferences.favoriteNotes && preferences.favoriteNotes.length > 0` is false for a falsy
field, for an empty array, and for a value without a `length` (`undefined > 0`). -/
def noteFactor (p : Preferences) (fragrance : Fragrance) :
    Except JsError (ℚ × List String) :=
  match p.favoriteNotes with
  | .absent => .ok (0, [])
  | .nonArray => .ok (0, [])
  | .arr favs =>
    if favs.length > 0 then
      match filterE (noteMatches favs) fragrance.notes with
      | .error e => .error e
      | .ok matchingNotes =>
        .ok ((matchingNotes.length : ℚ) / (favs.length : ℚ) * 30,
          if matchingNotes.length > 0 then
            ["Contains your favorite " ++ strJoin ", " matchingNotes ++ " notes"]
          else [])
    else .ok (0, [])

/-- The property names every object literal inherits from `Object.prototype`. -/
def objectPrototypeKeys : List String :=
  ["constructor", "__defineGetter__", "__defineSetter__", "hasOwnProperty",
   "__lookupGetter__", "__lookupSetter__", "isPrototypeOf", "propertyIsEnumerable",
   "toString", "valueOf", "__proto__", "toLocaleString"]

/-- The destructuring `const [min, max] = ranges[priceRange] || [0, 1000]`. A string that
names an inherited property yields a function (or the prototype object), which is truthy
and not iterable, so the destructuring throws. The key of a non-string value
(`"true"`, a numeral, `"[object Object]"`, ...) names no property of `ranges`. -/
def priceBounds : JsVal → Except JsError (ℚ × ℚ)
  | .str s =>
    if s = "Under $100" then .ok (0, 100)
    else if s = "$100-200" then .ok (100, 200)
    else if s = "$200-300" then .ok (200, 300)
    else if s = "Above $300" then .ok (300, 1000)
    else if s ∈ objectPrototypeKeys then .error .typeError
    else .ok (0, 1000)
  | _ => .ok (0, 1000)

/-- Method `calculatePriceScore`. -/
def calculatePriceScore (price : ℚ) (priceRange : JsVal) : Except JsError ℚ :=
  match priceBounds priceRange with
  | .error e => .error e
  | .ok (min, max) => .ok (if price ≥ min ∧ price ≤ max then 10 else 0)

/-- Price-range matching (weight 10): points and matching-factor strings. -/
def priceFactor (p : Preferences) (fragrance : Fragrance) :
    Except JsError (ℚ × List String) :=
  if p.priceRange.truthy then
    match calculatePriceScore fragrance.price p.priceRange with
    | .error e => .error e
    | .ok priceScore => .ok (priceScore, if priceScore > 5 then ["Within your budget"] else [])
  else .ok (0, [])

/-- The map callback of `ruleBasedRecommendations`: the five factors are evaluated in
source order, their points summed from `0`, and the sum capped by `Math.min(100, score)`.
A `null` query throws at the first property access. -/
def scoreFragrance (preferences : Option Preferences) (fragrance : Fragrance) :
    Except JsError ScoredItem :=
  match preferences with
  | none => .error .typeError
  | some p =>
    match seasonFactor p fragrance with
    | .error e => .error e
    | .ok (seasonPts, f1) =>
    match occasionFactor p fragrance with
    | .error e => .error e
    | .ok (occasionPts, f2) =>
    match intensityFactor p fragrance with
    | .error e => .error e
    | .ok (intensityPts, f3) =>
    match noteFactor p fragrance with
    | .error e => .error e
    | .ok (notePts, f4) =>
    match priceFactor p fragrance with
    | .error e => .error e
    | .ok (pricePts, f5) =>
      let score :=
        JsNum.add (JsNum.add (JsNum.add (.fin (0 + seasonPts + occasionPts)) intensityPts)
          (.fin notePts)) (.fin pricePts)
      .ok ⟨fragrance, JsNum.min (.fin 100) score, f1 ++ f2 ++ f3 ++ f4 ++ f5⟩

/-- Method `ruleBasedRecommendations` (it ignores `userId` and `limit`). -/
def ruleBasedRecommendations (catalog : List Fragrance) (preferences : Option Preferences) :
    Except JsError (List ScoredItem) :=
  match mapE (scoreFragrance preferences) catalog with
  | .error e => .error e
  | .ok scores => .ok (scores.filter (fun item => item.score.gt (.fin 30)))

/-! ## Profile store and similarity -/

/-- Method `updateUserProfile`: append `{ ...preferences, timestamp }` to the history
(of a fresh profile when the user is unknown), keep the last 10 entries, store it. -/
def updateUserProfile (profiles : ProfileStore) (now : Nat) (userId : UserId)
    (preferences : Option Preferences) : ProfileStore :=
  let existingProfile : UserProfile := (profiles.get userId).getD ⟨[], [], []⟩
  let pushed := existingProfile.preferences ++ [⟨preferences.getD Preferences.empty, now⟩]
  let kept := if pushed.length > 10 then pushed.drop (pushed.length - 10) else pushed
  profiles.set userId { existingProfile with preferences := kept }

/-- The favourite notes two queries have in common, as the source counts them:
`pref1.favoriteNotes.filter((note) => pref2.favoriteNotes.includes(note))`. -/
def commonNotes (notes1 notes2 : List JsVal) : List JsVal :=
  notes1.filter (fun note => decide (note ∈ notes2))

/-- The similarity of two latest queries, before the division by the factor count.

The subtraction `pref1.intensity - pref2.intensity` throws when either intensity has no
primitive value. The note comparison runs when both fields are truthy:
* two arrays: the common notes over the larger length;
* a first field that is no array: `pref1.favoriteNotes.filter` is no function, a
  `TypeError`;
* a non-empty array against a value that is no array: the callback calls
  `pref2.favoriteNotes.includes`, which is no function, a `TypeError`;
* an empty array against a value that is no array: the callback never runs, and the
  term is `0 / Math.max(0, undefined)`, which is `NaN`. -/
def similaritySum (pref1 pref2 : Preferences) : Except JsError JsNum :=
  let s1 : ℚ := if pref1.season.strictEq pref2.season then 2 / 10 else 0
  let s2 : ℚ := if pref1.occasion.strictEq pref2.occasion then 2 / 10 else 0
  match intensityNum pref1.intensity, intensityNum pref2.intensity with
  | .ok x1, .ok x2 =>
    let close := JsNum.le (JsNum.abs (JsNum.sub x1 x2)) (.fin 20)
    let s3 : ℚ := if close then 3 / 10 else 0
    let base : JsNum := .fin (0 + s1 + s2 + s3)
    match pref1.favoriteNotes, pref2.favoriteNotes with
    | .arr notes1, .arr notes2 =>
      .ok (JsNum.add base
        (JsNum.mul
          (JsNum.div (.fin ((commonNotes notes1 notes2).length : ℚ))
            (.fin ((Max.max notes1.length notes2.length : Nat) : ℚ)))
          (.fin (3 / 10))))
    | .arr notes1, .nonArray =>
      if notes1 = [] then
        .ok (JsNum.add base (JsNum.mul (JsNum.div (.fin 0) .nan) (.fin (3 / 10))))
      else .error .typeError
    | .nonArray, .arr _ => .error .typeError
    | .nonArray, .nonArray => .error .typeError
    | _, _ => .ok base
  | .error e, _ => .error e
  | _, .error e => .error e

/-- Method `calculateUserSimilarity`: `0` when a history is empty, otherwise the four
factors of the two latest queries divided by the factor count `4`. -/
def calculateUserSimilarity (profile1 profile2 : UserProfile) : Except JsError JsNum :=
  match profile1.preferences.getLast?, profile2.preferences.getLast? with
  | some pref1, some pref2 =>
    match similaritySum pref1.prefs pref2.prefs with
    | .error e => .error e
    | .ok similarity => .ok (JsNum.div similarity (.fin 4))
  | _, _ => .ok (.fin 0)

/-- The loop of `findSimilarUsers` over the store entries, in insertion order: the first
exception of a similarity computation aborts it. -/
def collectSimilarUsers (userId : UserId) (userProfile : UserProfile) :
    ProfileStore → Except JsError (List SimilarUser)
  | [] => .ok []
  | entry :: rest =>
    if entry.1 ≠ userId then
      match calculateUserSimilarity userProfile entry.2 with
      | .error e => .error e
      | .ok similarity =>
        match collectSimilarUsers userId userProfile rest with
        | .error e => .error e
        | .ok more =>
          .ok (if similarity.gt (.fin (6 / 10)) then ⟨entry.1, similarity⟩ :: more else more)
    else collectSimilarUsers userId userProfile rest

/-- Method `findSimilarUsers`. -/
def findSimilarUsers (profiles : ProfileStore) (userId : UserId) :
    Except JsError (List SimilarUser) :=
  match profiles.get userId with
  | none => .ok []
  | some userProfile =>
    match collectSimilarUsers userId userProfile profiles with
    | .error e => .error e
    | .ok similarUsers =>
      .ok (slice0 (jsSort (fun a b => JsNum.sub b.similarity a.similarity) similarUsers)
        (some 5))

/-! ## Boosting, confidence, explanation -/

/-- Method `calculateCollaborativeBoost`: `Math.random() * 10`, with `random` the value
drawn; the item id and the similar users are not used. -/
def calculateCollaborativeBoost (_fragranceId : Nat) (_similarUsers : List SimilarUser)
    (random : ℚ) : ℚ :=
  random * 10

/-- The map of `applyCollaborativeFiltering`, from draw number `k` on. -/
def boostFrom (similarUsers : List SimilarUser) (rnd : Nat → ℚ) :
    Nat → List ScoredItem → List BoostedItem
  | _, [] => []
  | k, r :: rest =>
    let boost := calculateCollaborativeBoost r.fragrance.id similarUsers (rnd k)
    ⟨r.fragrance, JsNum.min (.fin 100) (JsNum.add r.score (.fin boost)), r.matchingFactors, boost⟩
      :: boostFrom similarUsers rnd (k + 1) rest

/-- Method `applyCollaborativeFiltering`: `findSimilarUsers` runs first, whatever the
candidate list, and its exception leaves the method. -/
def applyCollaborativeFiltering (profiles : ProfileStore) (rnd : Nat → ℚ)
    (recommendations : List ScoredItem) (userId : UserId) :
    Except JsError (List BoostedItem) :=
  match findSimilarUsers profiles userId with
  | .error e => .error e
  | .ok similarUsers => .ok (boostFrom similarUsers rnd 0 recommendations)

/-- The budget test `preferences.priceRange && preferences.priceRange.includes("Under")`.
A `null` query throws, and so does a truthy price range that is not a string. -/
def budgetLimited (preferences : Option Preferences) : Except JsError Bool :=
  match preferences with
  | none => .error .typeError
  | some p =>
    if p.priceRange.truthy then
      match p.priceRange with
      | .str s => .ok (strIncludes s "Under")
      | _ => .error .typeError
    else .ok false

/-- Method `calculateConfidence`. -/
def calculateConfidence (recommendation : BoostedItem) (preferences : Option Preferences) :
    Except JsError JsNum :=
  let c0 := recommendation.score
  let c1 := JsNum.add c0 (.fin (recommendation.fragrance.popularity * 10))
  let c2 := JsNum.add c1 (.fin ((recommendation.fragrance.reviews - 3) * 5))
  match budgetLimited preferences with
  | .error e => .error e
  | .ok limited =>
    let c3 := if limited ∧ recommendation.fragrance.price > 150 then JsNum.sub c2 (.fin 15) else c2
    .ok (JsNum.max (.fin 0) (JsNum.min (.fin 100) c3))

/-- Method `generateExplanation`. -/
def generateExplanation (recommendation : BoostedItem) : String :=
  let explanations :=
    recommendation.matchingFactors
      ++ (if recommendation.fragrance.reviews ≥ 45 / 10 then ["Highly rated by customers"] else [])
      ++ (if recommendation.fragrance.popularity > 8 / 10 then ["Popular choice among users"] else [])
      ++ (if recommendation.collaborativeBoost > 5 then
            ["Loved by users with similar preferences"] else [])
  strJoin ". " explanations ++ "."

/-- The map callback that adds `confidence` and `explanation` to a boosted item. -/
def finishItem (preferences : Option Preferences) (r : BoostedItem) :
    Except JsError RankedResult :=
  match calculateConfidence r preferences with
  | .error e => .error e
  | .ok confidence =>
    .ok ⟨r.fragrance, r.score, r.matchingFactors, some r.collaborativeBoost, confidence,
      generateExplanation r⟩

/-! ## Model scoring -/

/-- The first feature, `preferences.intensity || 50`, as the tensor stores it: a falsy
intensity (absent, `0`) gives 50; an object without a primitive value is truthy, so it is
kept, and the conversion of the feature row to numbers throws on it. -/
def intensityFeature : JsIntensity → Except JsError ℚ
  | .num q => .ok (if q ≠ 0 then q else 50)
  | .absent => .ok 50
  | .unconvertible => .error .typeError

/-- Method `preprocessPreferences`: the feature row handed to the model. A `null` query
throws. -/
def preprocessPreferences (preferences : Option Preferences) : Except JsError (List ℚ) :=
  match preferences with
  | none => .error .typeError
  | some p =>
    let flag (v : JsVal) (s : String) : ℚ := if v.strictEq (.str s) then 1 else 0
    match intensityFeature p.intensity with
    | .error e => .error e
    | .ok intensity =>
      .ok [ intensity,
            flag p.season "spring", flag p.season "summer", flag p.season "fall",
            flag p.season "winter", flag p.occasion "daily", flag p.occasion "evening",
            flag p.occasion "special_events" ]

/-- The map of `mlBasedRecommendations`, from catalog index `index` on; a missing
prediction is `undefined`, whose product with `100` is `NaN`. -/
def mlScoresFrom (predictions : List JsNum) : Nat → List Fragrance → List ScoredItem
  | _, [] => []
  | index, fragrance :: rest =>
    ⟨fragrance, JsNum.mul ((predictions.get? index).getD .nan) (.fin 100),
      ["AI-powered recommendation based on your profile"]⟩
      :: mlScoresFrom predictions (index + 1) rest

/-- Method `mlBasedRecommendations`. -/
def mlBasedRecommendations (model : Model) (catalog : List Fragrance)
    (preferences : Option Preferences) : Except JsError (List ScoredItem) :=
  match preprocessPreferences preferences with
  | .error e => .error e
  | .ok inputTensor =>
    match model.predict inputTensor with
    | .error e => .error e
    | .ok predictions => .ok (mlScoresFrom predictions 0 catalog)

/-! ## Orchestrator -/

/-- The annotation the fallback path puts on a catalog item. -/
def fallbackItem (fragrance : Fragrance) : RankedResult :=
  ⟨fragrance, .fin (fragrance.popularity * 100), ["Trending fragrance"], none,
    .fin (fragrance.popularity * 100), "Popular choice among all users"⟩

/-- The comparator `(a, b) => b.popularity - a.popularity`. -/
def byPopularity (a b : Fragrance) : JsNum := JsNum.sub (.fin b.popularity) (.fin a.popularity)

/-- The comparator `(a, b) => b.confidence - a.confidence`. -/
def byConfidence (a b : RankedResult) : JsNum := JsNum.sub b.confidence a.confidence

/-- Method `getFallbackRecommendations`. The sort is applied to `this.fragranceDatabase`
itself, so the catalog of the returned service is the sorted one. -/
def getFallbackRecommendations (s : Service) (limit : Option Int) :
    List RankedResult × Service :=
  let sorted := jsSort byPopularity s.fragranceDatabase
  ((slice0 sorted limit).map fallbackItem, { s with fragranceDatabase := sorted })

/-- The strategy choice `if (this.model) ... else ...`: model scoring when a model is
loaded, rule scoring otherwise. -/
def scoreCandidates (s : Service) (userPreferences : Option Preferences) :
    Except JsError (List ScoredItem) :=
  match s.model with
  | some model => mlBasedRecommendations model s.fragranceDatabase userPreferences
  | none => ruleBasedRecommendations s.fragranceDatabase userPreferences

/-- The `try` block of `generateRecommendations`, after the profile update: score,
boost, add confidence and explanation, sort, truncate. -/
def pipeline (s : Service) (rnd : Nat → ℚ) (userPreferences : Option Preferences)
    (userId : UserId) (limit : Int) : Except JsError (List RankedResult) :=
  match scoreCandidates s userPreferences with
  | .error e => .error e
  | .ok scored =>
    match applyCollaborativeFiltering s.userProfiles rnd scored userId with
    | .error e => .error e
    | .ok boosted =>
      match mapE (finishItem userPreferences) boosted with
      | .error e => .error e
      | .ok recommendations =>
        .ok (slice0 (jsSort byConfidence recommendations) (some limit))

/-- Method `generateRecommendations`: the profile update and the pipeline run inside
`try`; the `catch` returns `getFallbackRecommendations(limit)`. An omitted `limit` is 5. -/
def generateRecommendations (s : Service) (now : Nat) (rnd : Nat → ℚ)
    (userPreferences : Option Preferences) (userId : UserId) (limit : Option Int) :
    Except JsError (List RankedResult) × Service :=
  let lim : Int := limit.getD 5
  let s1 : Service := { s with userProfiles := updateUserProfile s.userProfiles now userId userPreferences }
  match pipeline s1 rnd userPreferences userId lim with
  | .ok recommendations => (.ok recommendations, s1)
  | .error _ =>
    let (fallback, s2) := getFallbackRecommendations s1 (some lim)
    (.ok fallback, s2)

/-! ## Interaction log and call sequences -/

/-- Method `updateModelWeights`: it only writes a log line; the service is unchanged. -/
def updateModelWeights (s : Service) (_userId : UserId) (_fragranceId : JsVal)
    (_rating : JsVal) : Service :=
  s

/-- Method `recordInteraction`: append `{ fragranceId, type, rating, timestamp }` to the
interaction log of the user's profile (a fresh profile when the user is unknown) and store
it; an omitted `rating` is `null`. With a model and a truthy rating it then calls
`updateModelWeights`. -/
def recordInteraction (s : Service) (now : Nat) (userId : UserId) (fragranceId : JsVal)
    (interactionType : JsVal) (rating : JsVal) : Service :=
  let rating := if rating = .undefined then JsVal.null else rating
  let userProfile : UserProfile := (s.userProfiles.get userId).getD ⟨[], [], []⟩
  let pushed : UserProfile :=
    { userProfile with
      interactions := userProfile.interactions ++ [⟨fragranceId, interactionType, rating, now⟩] }
  let s1 : Service := { s with userProfiles := s.userProfiles.set userId pushed }
  if s1.model.isSome ∧ rating.truthy then updateModelWeights s1 userId fragranceId rating
  else s1

/-- Method `ruleBasedRecommendations` as a method of the service, with the unused
parameters `userId` and `limit` of the source. -/
def Service.ruleBasedRecommendations (s : Service) (preferences : Option Preferences)
    (_userId : UserId) (_limit : Option Int) : Except JsError (List ScoredItem) :=
  Sugi.ruleBasedRecommendations s.fragranceDatabase preferences

/-- One call of a public method that touches the profile store, with the clock value
(and random draws) it observes. -/
inductive Call where
  | updateUserProfile (now : Nat) (userId : UserId) (preferences : Option Preferences)
  | recordInteraction (now : Nat) (userId : UserId) (fragranceId interactionType rating : JsVal)
  | generateRecommendations (now : Nat) (rnd : Nat → ℚ) (userPreferences : Option Preferences)
      (userId : UserId) (limit : Option Int)

/-- The service after one call. -/
def Call.run (s : Service) : Call → Service
  | .updateUserProfile now userId preferences =>
    { s with userProfiles := Sugi.updateUserProfile s.userProfiles now userId preferences }
  | .recordInteraction now userId fragranceId interactionType rating =>
    Sugi.recordInteraction s now userId fragranceId interactionType rating
  | .generateRecommendations now rnd userPreferences userId limit =>
    (Sugi.generateRecommendations s now rnd userPreferences userId limit).2

/-- The service after a sequence of calls. -/
def runCalls (s : Service) : List Call → Service
  | [] => s
  | c :: rest => runCalls (c.run s) rest

/-- Successive `updateUserProfile` calls for one user; each call is the clock value it
observes and its query. -/
def updateUserProfileAll (profiles : ProfileStore) (userId : UserId) :
    List (Nat × Option Preferences) → ProfileStore
  | [] => profiles
  | c :: rest => updateUserProfileAll (updateUserProfile profiles c.1 userId c.2) userId rest

/-- The history entry `{ ...preferences, timestamp }` a call leaves. -/
def storedEntry (c : Nat × Option Preferences) : StoredPreference :=
  ⟨c.2.getD Preferences.empty, c.1⟩

/-! ## Well-formed queries -/

/-- The value is a string. -/
def JsVal.isStr : JsVal → Bool
  | .str _ => true
  | _ => false

/-- A well-formed query: season and occasion are strings or falsy (absent), the price
range is falsy or a string that names no inherited property of the `ranges` object (the
four labels and every other ordinary label qualify), the favourite notes are absent or an
array of strings, and the intensity is absent or a number. -/
def Preferences.wellFormed (p : Preferences) : Bool :=
  (p.season.isStr || !p.season.truthy) &&
  (p.occasion.isStr || !p.occasion.truthy) &&
  (match p.priceRange with
   | .str r => decide (r ∉ objectPrototypeKeys)
   | v => !v.truthy) &&
  (match p.favoriteNotes with
   | .absent => true
   | .arr notes => notes.all JsVal.isStr
   | .nonArray => false) &&
  (match p.intensity with
   | .unconvertible => false
   | _ => true)

/-- A typed query: the intensity converts to a number (it is absent or a number) and the
favourite notes are absent or an array. -/
def Preferences.typed (p : Preferences) : Bool :=
  decide (p.intensity ≠ .unconvertible) && decide (p.favoriteNotes ≠ .nonArray)

/-- The latest stored query of the profile, if there is one, is typed. -/
def UserProfile.latestTyped (profile : UserProfile) : Bool :=
  match profile.preferences.getLast? with
  | none => true
  | some latest => latest.prefs.typed

/-- Every user of the store has a typed latest query. -/
def storeTyped (profiles : ProfileStore) : Bool :=
  profiles.all (fun entry => entry.2.latestTyped)

/-- Every user of the store other than `userId` has a typed latest query. -/
def othersTyped (profiles : ProfileStore) (userId : UserId) : Bool :=
  profiles.all (fun entry => decide (entry.1 = userId) || entry.2.latestTyped)

/-! ## Auxiliary definitions for the statements -/

/-- The service state in which the pipeline of a request runs: the profile is updated,
the model and the catalog are untouched. -/
def afterProfileUpdate (s : Service) (now : Nat) (userId : UserId)
    (userPreferences : Option Preferences) : Service :=
  { s with userProfiles := updateUserProfile s.userProfiles now userId userPreferences }

/-- The finite value of a confidence (`0` for `NaN`). -/
def confidenceValue (r : RankedResult) : ℚ :=
  match r.confidence with
  | .fin v => v
  | .nan => 0

/-- The scoring stage yields numbers only: no candidate has a `NaN` score. Rule scoring
always satisfies it (a `NaN` score fails the `> 30` filter); with a model it says that the
model returns a number for every catalog position. -/
def numericScores (s : Service) (q : Option Preferences) : Prop :=
  ∀ scored, scoreCandidates s q = .ok scored → ∀ sc ∈ scored, ∃ v, sc.score = .fin v

/-- The invariant of the profile store: no preference history is longer than 10. -/
def historiesBounded (profiles : ProfileStore) : Prop :=
  ∀ entry ∈ profiles, entry.2.preferences.length ≤ 10

/-- The query's price-range label contains `"Under"`. -/
def labelContainsUnder (p : Preferences) : Bool :=
  match p.priceRange with
  | .str r => strIncludes r "Under"
  | _ => false

/-- The confidence as the specification words it: the clamp to `[0, 100]` of
`score + popularity * 10 + (rating - 3) * 5 - p`, with `p = 15` for a lower-budget label
and a price above 150, and `p = 0` otherwise. -/
def confidenceFormula (score popularity rating price : ℚ) (underBudget : Bool) : ℚ :=
  let p : ℚ := if underBudget = true ∧ price > 150 then 15 else 0
  Max.max 0 (Min.min 100 (score + popularity * 10 + (rating - 3) * 5 - p))

/-- The parts of an explanation as the specification lists them: the matching factors,
then each fixed sentence whose condition holds. -/
def explanationParts (r : BoostedItem) : List String :=
  r.matchingFactors ++
    (([("Highly rated by customers", decide (r.fragrance.reviews ≥ 45 / 10)),
       ("Popular choice among users", decide (r.fragrance.popularity > 8 / 10)),
       ("Loved by users with similar preferences", decide (r.collaborativeBoost > 5))]
      : List (String × Bool)).filter (fun part => part.2)).map (fun part => part.1)

/-- The explanation as the specification words it: the parts joined with `". "` and
closed by one period. -/
def explanationSpec (r : BoostedItem) : String :=
  String.intercalate ". " (explanationParts r) ++ "."

/-- The similarity of two profiles as a value: what `calculateUserSimilarity` returns,
and `NaN` (which is above no threshold) when it throws. -/
def similarityOf (profile1 profile2 : UserProfile) : JsNum :=
  match calculateUserSimilarity profile1 profile2 with
  | .ok similarity => similarity
  | .error _ => .nan

/-- The candidates of `findSimilarUsers` as the specification words them: in store order,
every other user whose similarity to `userProfile` is above 0.6, with that similarity. -/
def similarCandidates (profiles : ProfileStore) (userId : UserId) (userProfile : UserProfile) :
    List SimilarUser :=
  (profiles.filter (fun entry =>
      decide (entry.1 ≠ userId) &&
        (similarityOf userProfile entry.2).gt (.fin (6 / 10)))).map
    (fun entry => ⟨entry.1, similarityOf userProfile entry.2⟩)

/-- The two intensities are both given and at most 20 apart. -/
def intensityClose (a b : Preferences) : Bool :=
  match a.intensity, b.intensity with
  | .num x, .num y => decide (|x - y| ≤ 20)
  | _, _ => false

/-- The number of distinct favourite notes of `a` that are favourite notes of `b` too. -/
def commonNoteCount (a b : Preferences) : Nat :=
  (((a.favoriteNotes.list).dedup).filter
    (fun note => decide (note ∈ b.favoriteNotes.list))).length

/-- The similarity of two latest queries as the specification words it. A favourite-note
field that is absent (or no array) counts as an empty list, and the overlap ratio of two
empty lists counts as 0 (no note in common). -/
def similarityFormula (a b : Preferences) : ℚ :=
  ((2 / 10) * (if a.season = b.season then 1 else 0)
    + (2 / 10) * (if a.occasion = b.occasion then 1 else 0)
    + (3 / 10) * (if intensityClose a b = true then 1 else 0)
    + (3 / 10) * (commonNoteCount a b : ℚ)
        / ((Max.max (a.favoriteNotes.list).length (b.favoriteNotes.list).length : Nat) : ℚ))
    / 4

/-- The finite value of a similarity (`0` for `NaN`). -/
def similarityValue (u : SimilarUser) : ℚ :=
  match u.similarity with
  | .fin v => v
  | .nan => 0

/-- Every blank of a character list replaced by an underscore. -/
def replaceAllBlanks (cs : List Char) : List Char :=
  cs.map (fun c => if c = ' ' then '_' else c)

/-- The occasion as the specification normalises it: lower-cased, with every space
replaced by an underscore. -/
def occasionNormalized (s : String) : String :=
  ⟨replaceAllBlanks (strLower s).data⟩

/-- Some element of the list equals `s` ignoring letter case. -/
def memIgnoringCase (s : String) (xs : List String) : Prop :=
  ∃ e ∈ xs, strLower e = strLower s

/-- A query that supplies at most an intensity: season, occasion and price range are
falsy (absent, `null` or the empty string) and the favourite notes are absent or empty. -/
def intensityOnly (p : Preferences) : Prop :=
  p.season.truthy = false ∧ p.occasion.truthy = false ∧ p.priceRange.truthy = false ∧
    (p.favoriteNotes = .absent ∨ p.favoriteNotes = .arr [])

/-! ## Concrete inputs -/

/-- The sample query of the worked scenario of the specification. -/
def sampleQuery : Preferences :=
  ⟨.str "spring", .str "daily", .num 50, .arr [.str "citrus", .str "woody"], .str "$100-200"⟩

/-- The score records the rule scorer returns for `sampleQuery` on the built-in catalog. -/
def sampleScored : List ScoredItem :=
  [ ⟨initializeFragranceDatabase.get ⟨0, by decide⟩, .fin (197 / 2),
      ["Perfect for spring", "Ideal for daily", "Perfect intensity level",
       "Contains your favorite citrus, woody notes", "Within your budget"]⟩,
    ⟨initializeFragranceDatabase.get ⟨2, by decide⟩, .fin (169 / 2),
      ["Perfect for spring", "Ideal for daily", "Perfect intensity level",
       "Contains your favorite citrus notes", "Within your budget"]⟩ ]

/-- A profile whose history is the single query `p`. -/
def profileOf (p : Preferences) : UserProfile := ⟨[⟨p, 0⟩], [], []⟩

/-- A query whose favourite notes name citrus twice. -/
def citrusTwice : Preferences :=
  ⟨.str "spring", .str "daily", .num 50, .arr [.str "citrus", .str "citrus"], .undefined⟩

/-- The same query with citrus named once. -/
def citrusOnce : Preferences :=
  ⟨.str "spring", .str "daily", .num 50, .arr [.str "citrus"], .undefined⟩

/-- A query with an empty favourite-note list (the default of the client form). -/
def noFavorites : Preferences :=
  ⟨.str "spring", .str "daily", .num 50, .arr [], .undefined⟩

/-- The sample query without its intensity field. -/
def sampleQueryNoIntensity : Preferences :=
  ⟨.str "spring", .str "daily", .absent, .arr [.str "citrus", .str "woody"], .str "$100-200"⟩

/-- The built-in item "Sugi Classic". -/
def sugiClassic : Fragrance := initializeFragranceDatabase.get ⟨0, by decide⟩

/-- Twelve successive profile updates, at clock values 1 to 12, with queries whose
intensities are 1 to 12. -/
def twelveUpdates : List (Nat × Option Preferences) :=
  (List.range 12).map (fun i =>
    (i + 1, some ⟨.undefined, .undefined, .num ((i : ℚ) + 1), .absent, .undefined⟩))

/-- A boosted record of "Sugi Classic" with score 90 and boost 6. -/
def sugiBoosted : BoostedItem := ⟨sugiClassic, .fin 90, ["Perfect for spring"], 6⟩

/-- A query with the lower-budget label. -/
def underBudgetQuery : Preferences :=
  ⟨.undefined, .undefined, .num 50, .absent, .str "Under $100"⟩

/-- The query of an untouched client form:
`{ season: "", occasion: "", intensity: 50, favoriteNotes: [], priceRange: "" }`. -/
def untouchedForm : Preferences :=
  ⟨.str "", .str "", .num 50, .arr [], .str ""⟩

/-- A query whose only favourite note is `"wood"`. -/
def woodQuery : Preferences :=
  ⟨.undefined, .undefined, .num 50, .arr [.str "wood"], .undefined⟩

/-- A catalog item like "Sugi Classic" whose only occasion is `"black_tie_event"`. -/
def blackTieItem : Fragrance :=
  { sugiClassic with occasion := ["black_tie_event"] }

/-- A query for the occasion `"Black Tie Event"`. -/
def blackTieQuery : Preferences :=
  ⟨.undefined, .str "Black Tie Event", .num 50, .absent, .undefined⟩

/-- A catalog item like "Sugi Classic" whose season is stored as `"Spring"`. -/
def capitalSeasonItem : Fragrance :=
  { sugiClassic with season := ["Spring"] }

/-- A query for the season `"spring"`. -/
def springQuery : Preferences :=
  ⟨.str "spring", .undefined, .num 50, .absent, .undefined⟩

/-- A query with intensity 0 (the low end of the client slider). -/
def zeroIntensityQuery : Preferences :=
  ⟨.str "spring", .str "daily", .num 0, .absent, .undefined⟩

/-- The built-in item "Evening Elegance". -/
def eveningElegance : Fragrance := initializeFragranceDatabase.get ⟨1, by decide⟩

/-- The query `{ intensity: 50, favoriteNotes: 5 }`: the favourite notes are a number. -/
def numberNotesQuery : Preferences :=
  ⟨.undefined, .undefined, .num 50, .nonArray, .undefined⟩

/-- The query `{ intensity: { valueOf: 1, toString: 1 } }`: the intensity is an object
without a primitive value. -/
def objectIntensityQuery : Preferences :=
  ⟨.undefined, .undefined, .unconvertible, .absent, .undefined⟩

/-- The fresh service after user 2 has sent `numberNotesQuery`. -/
def afterNumberNotes : Service :=
  (generateRecommendations Service.initial 0 (fun _ => 1 / 2) (some numberNotesQuery) 2 none).2

/-- The fresh service after user 2 has sent `objectIntensityQuery`. -/
def afterObjectIntensity : Service :=
  (generateRecommendations Service.initial 0 (fun _ => 1 / 2) (some objectIntensityQuery) 2
    none).2

/-- A service without a model whose store holds the typed query `citrusOnce` of user 7. -/
def seededService : Service :=
  ⟨none, [(7, profileOf citrusOnce)], initializeFragranceDatabase⟩

/-! ## Lemmas on the array primitives -/

theorem jsSort_perm {α : Type} (cmp : α → α → JsNum) (xs : List α) :
    (jsSort cmp xs).Perm xs :=
  List.perm_insertionSort _ xs

theorem jsSort_length {α : Type} (cmp : α → α → JsNum) (xs : List α) :
    (jsSort cmp xs).length = xs.length :=
  (jsSort_perm cmp xs).length_eq

theorem mem_jsSort {α : Type} (cmp : α → α → JsNum) (xs : List α) (a : α) :
    a ∈ jsSort cmp xs ↔ a ∈ xs :=
  (jsSort_perm cmp xs).mem_iff

/-- When the comparator is `key b - key a` on finite keys, the sorted array is in
non-increasing key order. -/
theorem jsSort_pairwise_of_key {α : Type} (cmp : α → α → JsNum) (key : α → ℚ) (xs : List α)
    (h : ∀ a ∈ xs, ∀ b ∈ xs, cmp a b = .fin (key b - key a)) :
    (jsSort cmp xs).Pairwise (fun a b => key b ≤ key a) := by
  have hmap := List.map_insertionSort (fun a b => (cmp a b).gt (.fin 0) = false)
    (fun x y : ℚ => x ≥ y) key xs (by
      intro a ha b hb
      show (cmp a b).gt (.fin 0) = false ↔ key a ≥ key b
      rw [h a ha b hb]
      simp [JsNum.gt])
  have hs : List.Sorted (fun x y : ℚ => x ≥ y) (List.map key (jsSort cmp xs)) := by
    unfold jsSort
    rw [hmap]
    exact List.sorted_insertionSort _ _
  exact List.pairwise_map.mp hs

/-- Stability: elements that the comparator never puts in the wrong order keep their
relative positions, so filtering them out of the sorted array gives the same list as
filtering them out of the original. -/
theorem jsSort_filter_eq {α : Type} (cmp : α → α → JsNum) (p : α → Bool) (xs : List α)
    (h : ∀ a ∈ xs, ∀ b ∈ xs, p a = true → p b = true → (cmp a b).gt (.fin 0) = false) :
    (jsSort cmp xs).filter p = xs.filter p := by
  have hpw : (xs.filter p).Pairwise (fun a b => (cmp a b).gt (.fin 0) = false) := by
    rw [List.pairwise_iff_forall_sublist]
    intro a b hab
    have ha : a ∈ xs.filter p := hab.subset (by simp)
    have hb : b ∈ xs.filter p := hab.subset (by simp)
    rw [List.mem_filter] at ha hb
    exact h a ha.1 b hb.1 ha.2 hb.2
  have hsub : List.Sublist (xs.filter p) (jsSort cmp xs) :=
    List.sublist_insertionSort hpw (List.filter_sublist xs)
  have hsub2 : List.Sublist (xs.filter p) ((jsSort cmp xs).filter p) := by
    have := hsub.filter p
    simpa [List.filter_filter] using this
  have hlen : (xs.filter p).length = ((jsSort cmp xs).filter p).length :=
    ((jsSort_perm cmp xs).filter p).length_eq.symm
  exact (hsub2.eq_of_length hlen).symm

theorem slice0_sublist {α : Type} (xs : List α) (e : Option Int) :
    List.Sublist (slice0 xs e) xs := by
  cases e with
  | none => exact List.Sublist.refl xs
  | some e =>
    simp only [slice0]
    split <;> exact List.take_sublist _ _

theorem slice0_length_of_nonneg {α : Type} (xs : List α) (e : Int) (he : 0 ≤ e) :
    (slice0 xs (some e)).length = Nat.min e.toNat xs.length := by
  simp only [slice0]
  rw [if_neg (by omega)]
  exact List.length_take _ _

theorem slice0_eq_take {α : Type} (xs : List α) (e : Int) (he : 0 ≤ e) :
    slice0 xs (some e) = xs.take e.toNat := by
  simp only [slice0]
  rw [if_neg (by omega)]

theorem mapE_ok_length {α β : Type} (f : α → Except JsError β) :
    ∀ (xs : List α) (ys : List β), mapE f xs = .ok ys → ys.length = xs.length
  | [], ys, h => by
    simp only [mapE, Except.ok.injEq] at h
    subst h
    rfl
  | a :: as, ys, h => by
    simp only [mapE] at h
    split at h
    · cases h
    · split at h
      · cases h
      · rename_i b _ bs hbs
        simp only [Except.ok.injEq] at h
        subst h
        simp [mapE_ok_length f as bs hbs]

theorem mapE_ok_mem {α β : Type} (f : α → Except JsError β) :
    ∀ (xs : List α) (ys : List β), mapE f xs = .ok ys → ∀ y ∈ ys, ∃ x ∈ xs, f x = .ok y
  | [], ys, h, y, hy => by
    simp only [mapE, Except.ok.injEq] at h
    subst h
    cases hy
  | a :: as, ys, h, y, hy => by
    simp only [mapE] at h
    split at h
    · cases h
    · split at h
      · cases h
      · rename_i b hb _ bs hbs
        simp only [Except.ok.injEq] at h
        subst h
        rcases List.mem_cons.mp hy with rfl | hy
        · exact ⟨a, List.mem_cons_self _ _, hb⟩
        · obtain ⟨x, hx, hfx⟩ := mapE_ok_mem f as bs hbs y hy
          exact ⟨x, List.mem_cons_of_mem _ hx, hfx⟩

theorem mapE_total {α β : Type} (f : α → Except JsError β) :
    ∀ (xs : List α), (∀ x ∈ xs, ∃ y, f x = .ok y) → ∃ ys, mapE f xs = .ok ys
  | [], _ => ⟨[], rfl⟩
  | a :: as, h => by
    obtain ⟨b, hb⟩ := h a (List.mem_cons_self _ _)
    obtain ⟨bs, hbs⟩ := mapE_total f as (fun x hx => h x (List.mem_cons_of_mem _ hx))
    exact ⟨b :: bs, by simp [mapE, hb, hbs]⟩

/-! ## Orchestrator boundary and fallback list -/

theorem byPopularity_eq (a b : Fragrance) :
    byPopularity a b = .fin (b.popularity - a.popularity) := rfl

/-- C1: `generateRecommendations` never raises. For every service state (whatever the
profile store and the model), clock, random draws, query (a `null` query and queries with
non-string fields included), user id and limit, the call returns a list; and whenever the
`try` block throws, that list is exactly the list of `getFallbackRecommendations(limit)`. -/
theorem generateRecommendations_never_raises (s : Service) (now : Nat) (rnd : Nat → ℚ)
    (userPreferences : Option Preferences) (userId : UserId) (limit : Option Int) :
    ∃ l, (generateRecommendations s now rnd userPreferences userId limit).1 = .ok l ∧
      ∀ e, pipeline
            { s with userProfiles := updateUserProfile s.userProfiles now userId userPreferences }
            rnd userPreferences userId (limit.getD 5) = .error e →
          l = (getFallbackRecommendations s (some (limit.getD 5))).1 := by
  unfold generateRecommendations
  cases hp : pipeline
      { s with userProfiles := updateUserProfile s.userProfiles now userId userPreferences }
      rnd userPreferences userId (limit.getD 5) with
  | ok l =>
    refine ⟨l, ?_, ?_⟩
    · simp only [hp]
    · intro e he
      cases he
  | error e =>
    refine ⟨(getFallbackRecommendations s (some (limit.getD 5))).1, ?_, ?_⟩
    · simp only [hp]
      rfl
    · intro _ _
      rfl

/-- C2: for every catalog and every limit `>= 0`, the fallback list is the first `limit`
items of the stable descending-popularity sort of the catalog (`sorted` below is a
permutation of the catalog, in non-increasing popularity order, in which items of equal
popularity keep their catalog order), each annotated with `confidence = popularity * 100`
and the explanation `"Popular choice among all users"`. -/
theorem getFallbackRecommendations_spec (s : Service) (limit : Int) (h : 0 ≤ limit) :
    ∃ sorted : List Fragrance,
      sorted.Perm s.fragranceDatabase ∧
      sorted.Pairwise (fun a b => a.popularity ≥ b.popularity) ∧
      (∀ p : ℚ, sorted.filter (fun f => decide (f.popularity = p))
        = s.fragranceDatabase.filter (fun f => decide (f.popularity = p))) ∧
      (getFallbackRecommendations s (some limit)).1.map (fun r => r.fragrance)
        = sorted.take limit.toNat ∧
      ∀ r ∈ (getFallbackRecommendations s (some limit)).1,
        r.confidence = .fin (r.fragrance.popularity * 100) ∧
        r.explanation = "Popular choice among all users" := by
  refine ⟨jsSort byPopularity s.fragranceDatabase, jsSort_perm _ _, ?_, ?_, ?_, ?_⟩
  · exact jsSort_pairwise_of_key byPopularity (fun f => f.popularity) _
      (fun a _ b _ => byPopularity_eq a b)
  · intro p
    apply jsSort_filter_eq
    intro a _ b _ ha hb
    have ha1 : a.popularity = p := of_decide_eq_true ha
    have hb1 : b.popularity = p := of_decide_eq_true hb
    simp [byPopularity_eq, JsNum.gt, ha1, hb1]
  · simp only [getFallbackRecommendations, slice0_eq_take _ _ h, List.map_map]
    have : ((fun r : RankedResult => r.fragrance) ∘ fallbackItem) = id := rfl
    rw [this, List.map_id]
  · intro r hr
    simp only [getFallbackRecommendations, List.mem_map] at hr
    obtain ⟨f, _, rfl⟩ := hr
    exact ⟨rfl, rfl⟩

/-- The fallback list of the built-in catalog with limit 2. -/
theorem getFallbackRecommendations_spec_witness :
    (0 : Int) ≤ 2 ∧
    ∃ sorted : List Fragrance,
      sorted.Perm Service.initial.fragranceDatabase ∧
      sorted.Pairwise (fun a b => a.popularity ≥ b.popularity) ∧
      (∀ p : ℚ, sorted.filter (fun f => decide (f.popularity = p))
        = Service.initial.fragranceDatabase.filter (fun f => decide (f.popularity = p))) ∧
      (getFallbackRecommendations Service.initial (some 2)).1.map (fun r => r.fragrance)
        = sorted.take (2 : Int).toNat ∧
      ∀ r ∈ (getFallbackRecommendations Service.initial (some 2)).1,
        r.confidence = .fin (r.fragrance.popularity * 100) ∧
        r.explanation = "Popular choice among all users" :=
  ⟨by decide, getFallbackRecommendations_spec Service.initial 2 (by decide)⟩

/-- The built-in catalog after the in-place sort of the fallback path. -/
theorem jsSort_initial_catalog :
    (jsSort byPopularity initializeFragranceDatabase).map (fun f => f.id) = [3, 1, 2] := by
  simp only [jsSort, initializeFragranceDatabase, List.insertionSort, List.orderedInsert,
    byPopularity, JsNum.sub, JsNum.gt]
  norm_num

/-- C3 (the code mutates the catalog): on the freshly constructed service, one call with a
`null` query takes the fallback path, and afterwards `fragranceDatabase` holds the items in
the order 3, 1, 2 instead of the built-in order 1, 2, 3. -/
theorem generateRecommendations_reorders_catalog :
    Service.initial.fragranceDatabase.map (fun f => f.id) = [1, 2, 3] ∧
    (generateRecommendations Service.initial 0 (fun _ => 0) none 1 none).2.fragranceDatabase.map
      (fun f => f.id) = [3, 1, 2] ∧
    (getFallbackRecommendations Service.initial (some 5)).2.fragranceDatabase.map
      (fun f => f.id) = [3, 1, 2] := by
  refine ⟨rfl, ?_, ?_⟩
  · have hp : pipeline
        { Service.initial with
          userProfiles := updateUserProfile Service.initial.userProfiles 0 1 none }
        (fun _ => 0) none 1 ((none : Option Int).getD 5) = .error .typeError := rfl
    simp only [generateRecommendations, hp, getFallbackRecommendations]
    exact jsSort_initial_catalog
  · simp only [getFallbackRecommendations]
    exact jsSort_initial_catalog

/-! ## Score bounds -/

theorem min100_gt30 (x : JsNum) (h : (JsNum.min (.fin 100) x).gt (.fin 30) = true) :
    ∃ v, JsNum.min (.fin 100) x = .fin v ∧ 30 < v ∧ v ≤ 100 := by
  cases x with
  | nan => simp [JsNum.min, JsNum.gt] at h
  | fin q =>
    refine ⟨Min.min 100 q, rfl, ?_, min_le_left _ _⟩
    simpa [JsNum.min, JsNum.gt] using h

theorem scoreFragrance_ok (q : Option Preferences) (f : Fragrance) (sc : ScoredItem)
    (h : scoreFragrance q f = .ok sc) :
    sc.fragrance = f ∧ ∃ x, sc.score = JsNum.min (.fin 100) x := by
  unfold scoreFragrance at h
  split at h
  · cases h
  · split at h
    · cases h
    · split at h
      · cases h
      · split at h
        · cases h
        · split at h
          · cases h
          · split at h
            · cases h
            · simp only [Except.ok.injEq] at h
              subst h
              exact ⟨rfl, _, rfl⟩

/-- Every record of `ruleBasedRecommendations` is the score record of a catalog item,
with a finite score above the threshold 30 and at most 100. -/
theorem ruleBasedRecommendations_mem (catalog : List Fragrance) (q : Option Preferences)
    (recs : List ScoredItem) (h : ruleBasedRecommendations catalog q = .ok recs) :
    ∀ r ∈ recs, r.fragrance ∈ catalog ∧ scoreFragrance q r.fragrance = .ok r ∧
      ∃ v, r.score = .fin v ∧ 30 < v ∧ v ≤ 100 := by
  unfold ruleBasedRecommendations at h
  split at h
  · cases h
  · rename_i scores hs
    simp only [Except.ok.injEq] at h
    subst h
    intro r hr
    rw [List.mem_filter] at hr
    obtain ⟨f, hf, hfr⟩ := mapE_ok_mem _ _ _ hs r hr.1
    obtain ⟨hfrag, x, hx⟩ := scoreFragrance_ok q f r hfr
    subst hfrag
    refine ⟨hf, hfr, ?_⟩
    rw [hx] at hr ⊢
    exact min100_gt30 x hr.2

theorem boostFrom_mem (su : List SimilarUser) (rnd : Nat → ℚ) :
    ∀ (recs : List ScoredItem) (k : Nat) (r : BoostedItem), r ∈ boostFrom su rnd k recs →
      ∃ sc ∈ recs, ∃ j, r = ⟨sc.fragrance,
        JsNum.min (.fin 100) (JsNum.add sc.score (.fin (rnd j * 10))),
        sc.matchingFactors, rnd j * 10⟩
  | [], _, r, h => by cases h
  | sc :: rest, k, r, h => by
    simp only [boostFrom, List.mem_cons] at h
    rcases h with h | h
    · exact ⟨sc, List.mem_cons_self _ _, k, h⟩
    · obtain ⟨sc2, hsc2, j, hj⟩ := boostFrom_mem su rnd rest (k + 1) r h
      exact ⟨sc2, List.mem_cons_of_mem _ hsc2, j, hj⟩

theorem boostFrom_length (su : List SimilarUser) (rnd : Nat → ℚ) :
    ∀ (recs : List ScoredItem) (k : Nat), (boostFrom su rnd k recs).length = recs.length
  | [], _ => rfl
  | _ :: rest, k => by simp [boostFrom, boostFrom_length su rnd rest (k + 1)]

theorem applyCollaborativeFiltering_ok (profiles : ProfileStore) (rnd : Nat → ℚ)
    (recs : List ScoredItem) (userId : UserId) (boosted : List BoostedItem)
    (h : applyCollaborativeFiltering profiles rnd recs userId = .ok boosted) :
    ∃ su, findSimilarUsers profiles userId = .ok su ∧ boosted = boostFrom su rnd 0 recs := by
  unfold applyCollaborativeFiltering at h
  split at h
  · cases h
  · rename_i su hsu
    simp only [Except.ok.injEq] at h
    exact ⟨su, hsu, h.symm⟩

theorem ruleBasedRecommendations_sample :
    ruleBasedRecommendations initializeFragranceDatabase (some sampleQuery) = .ok sampleScored := by
  decide!

/-- C4: in rule mode, for every query, every catalog, every profile store and every
non-negative draw of the collaborative boost, every record produced by
`ruleBasedRecommendations`, and every record of every list produced from those by
`applyCollaborativeFiltering`, has `0 <= score <= 100`. -/
theorem rule_scores_bounded (catalog : List Fragrance) (preferences : Option Preferences)
    (profiles : ProfileStore) (rnd : Nat → ℚ) (userId : UserId) (recs : List ScoredItem)
    (hrnd : ∀ k, 0 ≤ rnd k)
    (hok : ruleBasedRecommendations catalog preferences = .ok recs) :
    (∀ r ∈ recs, r.score.within 0 100) ∧
    ∀ boosted, applyCollaborativeFiltering profiles rnd recs userId = .ok boosted →
      ∀ r ∈ boosted, r.score.within 0 100 := by
  have hmem := ruleBasedRecommendations_mem catalog preferences recs hok
  constructor
  · intro r hr
    obtain ⟨_, _, v, hv, h30, h100⟩ := hmem r hr
    rw [hv]
    exact ⟨by linarith, h100⟩
  · intro boosted hboosted r hr
    obtain ⟨su, _, rfl⟩ := applyCollaborativeFiltering_ok profiles rnd recs userId boosted hboosted
    obtain ⟨sc, hsc, j, rfl⟩ := boostFrom_mem _ rnd recs 0 r hr
    obtain ⟨_, _, v, hv, h30, h100⟩ := hmem sc hsc
    have hj := hrnd j
    simp only [hv, JsNum.add, JsNum.min, JsNum.within]
    refine ⟨le_min (by norm_num) (by linarith), min_le_left _ _⟩

/-- The score bounds on the built-in catalog for the sample query, where the boosting
returns the two boosted records. -/
theorem rule_scores_bounded_witness :
    (∃ boosted, applyCollaborativeFiltering [] (fun _ => 1 / 2) sampleScored 1
      = .ok boosted ∧ boosted.length = 2) ∧
    (∀ r ∈ sampleScored, r.score.within 0 100) ∧
    ∀ boosted, applyCollaborativeFiltering [] (fun _ => 1 / 2) sampleScored 1 = .ok boosted →
      ∀ r ∈ boosted, r.score.within 0 100 :=
  ⟨⟨_, rfl, rfl⟩,
    rule_scores_bounded initializeFragranceDatabase (some sampleQuery) [] (fun _ => 1 / 2) 1
      sampleScored (fun _ => by norm_num) ruleBasedRecommendations_sample⟩

/-! ## Structure of a request -/

theorem pipeline_ok (s : Service) (rnd : Nat → ℚ) (q : Option Preferences) (userId : UserId)
    (lim : Int) (l : List RankedResult) (h : pipeline s rnd q userId lim = .ok l) :
    ∃ scored su recs, scoreCandidates s q = .ok scored ∧
      findSimilarUsers s.userProfiles userId = .ok su ∧
      mapE (finishItem q) (boostFrom su rnd 0 scored) = .ok recs ∧
      l = slice0 (jsSort byConfidence recs) (some lim) := by
  unfold pipeline at h
  split at h
  · cases h
  · rename_i scored hscored
    split at h
    · cases h
    · rename_i boosted hboosted
      obtain ⟨su, hsu, rfl⟩ :=
        applyCollaborativeFiltering_ok s.userProfiles rnd scored userId boosted hboosted
      split at h
      · cases h
      · rename_i recs hrecs
        simp only [Except.ok.injEq] at h
        exact ⟨scored, su, recs, hscored, hsu, hrecs, h.symm⟩

/-- The two ways a request ends: the pipeline result, or the fallback list. -/
theorem generateRecommendations_cases (s : Service) (now : Nat) (rnd : Nat → ℚ)
    (q : Option Preferences) (userId : UserId) (limit : Option Int) :
    (∃ l, pipeline (afterProfileUpdate s now userId q) rnd q userId (limit.getD 5) = .ok l ∧
        generateRecommendations s now rnd q userId limit
          = (.ok l, afterProfileUpdate s now userId q)) ∨
    (∃ e, pipeline (afterProfileUpdate s now userId q) rnd q userId (limit.getD 5) = .error e ∧
        generateRecommendations s now rnd q userId limit
          = (.ok (getFallbackRecommendations s (some (limit.getD 5))).1,
             (getFallbackRecommendations (afterProfileUpdate s now userId q)
               (some (limit.getD 5))).2)) := by
  unfold generateRecommendations afterProfileUpdate
  cases hp : pipeline
      { s with userProfiles := updateUserProfile s.userProfiles now userId q }
      rnd q userId (limit.getD 5) with
  | ok l =>
    refine Or.inl ⟨l, rfl, ?_⟩
    simp only [hp]
  | error e =>
    refine Or.inr ⟨e, rfl, ?_⟩
    simp only [hp]
    rfl

/-- On the success path the catalog is untouched. -/
theorem catalog_unchanged_on_success (s : Service) (now : Nat) (rnd : Nat → ℚ)
    (q : Option Preferences) (userId : UserId) (limit : Option Int) (l : List RankedResult)
    (h : pipeline (afterProfileUpdate s now userId q) rnd q userId (limit.getD 5) = .ok l) :
    (generateRecommendations s now rnd q userId limit).2.fragranceDatabase
      = s.fragranceDatabase := by
  rcases generateRecommendations_cases s now rnd q userId limit with ⟨l1, _, hg⟩ | ⟨e, hp, _⟩
  · rw [hg]
    rfl
  · rw [h] at hp
    cases hp

/-- Whatever the path, the catalog after a request holds the same items as before. -/
theorem catalog_perm (s : Service) (now : Nat) (rnd : Nat → ℚ)
    (q : Option Preferences) (userId : UserId) (limit : Option Int) :
    (generateRecommendations s now rnd q userId limit).2.fragranceDatabase.Perm
      s.fragranceDatabase := by
  rcases generateRecommendations_cases s now rnd q userId limit with ⟨l1, _, hg⟩ | ⟨e, _, hg⟩
  · rw [hg]
    exact List.Perm.refl _
  · rw [hg]
    exact jsSort_perm byPopularity s.fragranceDatabase

theorem finishItem_ok (q : Option Preferences) (b : BoostedItem) (r : RankedResult)
    (h : finishItem q b = .ok r) :
    r.fragrance = b.fragrance ∧ calculateConfidence b q = .ok r.confidence := by
  unfold finishItem at h
  split at h
  · cases h
  · rename_i c hc
    simp only [Except.ok.injEq] at h
    subst h
    exact ⟨rfl, hc⟩

/-! ## Confidence bounds -/

theorem clamp_within (x : ℚ) : (JsNum.max (.fin 0) (JsNum.min (.fin 100) (.fin x))).within 0 100 := by
  simp only [JsNum.min, JsNum.max, JsNum.within]
  exact ⟨le_max_left _ _, max_le (by norm_num) (min_le_left _ _)⟩

theorem calculateConfidence_within (r : BoostedItem) (x : ℚ) (q : Option Preferences) (c : JsNum)
    (hx : r.score = .fin x) (h : calculateConfidence r q = .ok c) : c.within 0 100 := by
  unfold calculateConfidence at h
  simp only [hx, JsNum.add] at h
  split at h
  · cases h
  · simp only [Except.ok.injEq] at h
    subst h
    split
    · exact clamp_within _
    · exact clamp_within _

theorem numericScores_of_rule (s : Service) (q : Option Preferences) (hmodel : s.model = none) :
    numericScores s q := by
  intro scored hscored sc hsc
  simp only [scoreCandidates, hmodel] at hscored
  obtain ⟨_, _, v, hv, _, _⟩ := ruleBasedRecommendations_mem _ q scored hscored sc hsc
  exact ⟨v, hv⟩

theorem numericScores_of_mode (s : Service) (q : Option Preferences)
    (h : s.model = none ∨ numericScores s q) : numericScores s q :=
  h.elim (numericScores_of_rule s q) id

theorem mlScoresFrom_map_fragrance (predictions : List JsNum) :
    ∀ (catalog : List Fragrance) (k : Nat),
      (mlScoresFrom predictions k catalog).map (fun r => r.fragrance) = catalog
  | [], _ => rfl
  | _ :: rest, k => by
    simp only [mlScoresFrom, List.map_cons, mlScoresFrom_map_fragrance predictions rest (k + 1)]

/-- The records entering the final sort have confidences in `[0, 100]` when the candidate
scores are numbers. -/
theorem records_confidence_within (su : List SimilarUser) (rnd : Nat → ℚ)
    (q : Option Preferences) (scored : List ScoredItem)
    (recs : List RankedResult) (hnum : ∀ sc ∈ scored, ∃ v, sc.score = .fin v)
    (hrecs : mapE (finishItem q) (boostFrom su rnd 0 scored) = .ok recs) :
    ∀ r ∈ recs, r.confidence.within 0 100 := by
  intro r hr
  obtain ⟨b, hb, hfin⟩ := mapE_ok_mem _ _ _ hrecs r hr
  obtain ⟨_, hconf⟩ := finishItem_ok q b r hfin
  obtain ⟨sc, hsc, j, rfl⟩ := boostFrom_mem _ rnd scored 0 b hb
  obtain ⟨v, hv⟩ := hnum sc hsc
  exact calculateConfidence_within _ (Min.min 100 (v + rnd j * 10)) q _
    (by simp only [hv, JsNum.add, JsNum.min]) hconf

/-- Every pipeline result has a confidence in `[0, 100]` when the candidate scores are
numbers. -/
theorem pipeline_confidence_within (s : Service) (rnd : Nat → ℚ) (q : Option Preferences)
    (userId : UserId) (lim : Int) (l : List RankedResult) (hnum : numericScores s q)
    (h : pipeline s rnd q userId lim = .ok l) : ∀ r ∈ l, r.confidence.within 0 100 := by
  obtain ⟨scored, su, recs, hscored, _, hrecs, rfl⟩ := pipeline_ok s rnd q userId lim l h
  intro r hr
  have hr1 : r ∈ recs := (mem_jsSort _ _ _).mp ((slice0_sublist _ _).subset hr)
  exact records_confidence_within su rnd q scored recs (hnum scored hscored) hrecs r hr1

theorem fallback_mem (s : Service) (limit : Option Int) (r : RankedResult)
    (hr : r ∈ (getFallbackRecommendations s limit).1) :
    r.fragrance ∈ s.fragranceDatabase ∧ r = fallbackItem r.fragrance := by
  simp only [getFallbackRecommendations, List.mem_map] at hr
  obtain ⟨f, hf, rfl⟩ := hr
  exact ⟨(mem_jsSort _ _ _).mp ((slice0_sublist _ _).subset hf), rfl⟩

/-- C5: when the candidate scores are numbers (always so with no model loaded) and the
catalog popularities lie in `[0, 1]`, every result returned by `generateRecommendations`
has `0 <= confidence <= 100`; `calculateConfidence` returns a value in `[0, 100]` for every
numeric score and every popularity, rating, price and query on which it returns; and every
fallback result has `confidence = popularity * 100`, which lies in `[0, 100]`. -/
theorem confidence_bounded (s : Service) (now : Nat) (rnd : Nat → ℚ)
    (q : Option Preferences) (userId : UserId) (limit : Option Int)
    (hmode : s.model = none ∨ numericScores s q)
    (hpop : ∀ f ∈ s.fragranceDatabase, 0 ≤ f.popularity ∧ f.popularity ≤ 1) :
    (∃ l, (generateRecommendations s now rnd q userId limit).1 = .ok l ∧
      ∀ r ∈ l, r.confidence.within 0 100) ∧
    (∀ (r : BoostedItem) (x : ℚ) (c : JsNum),
      r.score = .fin x → calculateConfidence r q = .ok c → c.within 0 100) ∧
    (∀ r ∈ (getFallbackRecommendations s limit).1,
      r.confidence = .fin (r.fragrance.popularity * 100) ∧ r.confidence.within 0 100) := by
  have hfb : ∀ (lim : Option Int), ∀ r ∈ (getFallbackRecommendations s lim).1,
      r.confidence = .fin (r.fragrance.popularity * 100) ∧ r.confidence.within 0 100 := by
    intro lim r hr
    obtain ⟨hmem, heq⟩ := fallback_mem s lim r hr
    obtain ⟨h0, h1⟩ := hpop _ hmem
    rw [heq]
    refine ⟨rfl, ?_⟩
    simp only [fallbackItem, JsNum.within]
    constructor <;> nlinarith
  refine ⟨?_, fun r x c hx hc => calculateConfidence_within r x q c hx hc, hfb limit⟩
  rcases generateRecommendations_cases s now rnd q userId limit with ⟨l, hp, hg⟩ | ⟨e, _, hg⟩
  · exact ⟨l, by rw [hg], pipeline_confidence_within _ rnd q userId _ l
      (show numericScores (afterProfileUpdate s now userId q) q from
        numericScores_of_mode s q hmode) hp⟩
  · exact ⟨_, by rw [hg], fun r hr => (hfb _ r hr).2⟩

/-- The confidence bounds on the fresh service for the sample query. -/
theorem confidence_bounded_witness :
    (∃ l, (generateRecommendations Service.initial 0 (fun _ => 1 / 2) (some sampleQuery) 1
        none).1 = .ok l ∧ ∀ r ∈ l, r.confidence.within 0 100) ∧
    (∀ (r : BoostedItem) (x : ℚ) (c : JsNum),
      r.score = .fin x → calculateConfidence r (some sampleQuery) = .ok c → c.within 0 100) ∧
    (∀ r ∈ (getFallbackRecommendations Service.initial none).1,
      r.confidence = .fin (r.fragrance.popularity * 100) ∧ r.confidence.within 0 100) :=
  confidence_bounded Service.initial 0 (fun _ => 1 / 2) (some sampleQuery) 1 none (Or.inl rfl)
    (by decide!)

/-! ## Order of the delivered list -/

theorem mapE_map_eq {α β γ : Type} (f : α → Except JsError β) (g : β → γ) (k : α → γ)
    (hf : ∀ x y, f x = .ok y → g y = k x) :
    ∀ (xs : List α) (ys : List β), mapE f xs = .ok ys → ys.map g = xs.map k
  | [], ys, h => by
    simp only [mapE, Except.ok.injEq] at h
    subst h
    rfl
  | a :: as, ys, h => by
    simp only [mapE] at h
    split at h
    · cases h
    · split at h
      · cases h
      · rename_i b hb _ bs hbs
        simp only [Except.ok.injEq] at h
        subst h
        simp only [List.map_cons, hf a b hb, mapE_map_eq f g k hf as bs hbs]

theorem boostFrom_map_fragrance (su : List SimilarUser) (rnd : Nat → ℚ) :
    ∀ (recs : List ScoredItem) (k : Nat),
      (boostFrom su rnd k recs).map (fun b => b.fragrance) = recs.map (fun r => r.fragrance)
  | [], _ => rfl
  | _ :: rest, k => by
    simp only [boostFrom, List.map_cons, boostFrom_map_fragrance su rnd rest (k + 1)]

theorem ruleBasedRecommendations_sublist (catalog : List Fragrance) (q : Option Preferences)
    (recs : List ScoredItem) (h : ruleBasedRecommendations catalog q = .ok recs) :
    List.Sublist (recs.map (fun r => r.fragrance)) catalog := by
  unfold ruleBasedRecommendations at h
  split at h
  · cases h
  · rename_i scores hs
    simp only [Except.ok.injEq] at h
    subst h
    have hmap : scores.map (fun r => r.fragrance) = catalog.map id :=
      mapE_map_eq (scoreFragrance q) (fun r => r.fragrance) id
        (fun x y hxy => (scoreFragrance_ok q x y hxy).1) catalog scores hs
    rw [List.map_id] at hmap
    rw [← hmap]
    exact (List.filter_sublist scores).map _

theorem confidence_eq_value (r : RankedResult) (h : r.confidence.within 0 100) :
    r.confidence = .fin (confidenceValue r) := by
  unfold confidenceValue
  cases hc : r.confidence with
  | nan => rw [hc] at h; exact h.elim
  | fin v => rfl

theorem scoreCandidates_sublist (s : Service) (q : Option Preferences)
    (scored : List ScoredItem) (h : scoreCandidates s q = .ok scored) :
    List.Sublist (scored.map (fun r => r.fragrance)) s.fragranceDatabase := by
  unfold scoreCandidates at h
  cases hm : s.model with
  | none =>
    rw [hm] at h
    exact ruleBasedRecommendations_sublist _ q scored h
  | some model =>
    rw [hm] at h
    simp only [mlBasedRecommendations] at h
    split at h
    · cases h
    · split at h
      · cases h
      · simp only [Except.ok.injEq] at h
        subst h
        rw [mlScoresFrom_map_fragrance]

/-- The records entering the final sort are in catalog order. -/
theorem records_in_catalog_order (s : Service) (rnd : Nat → ℚ) (q : Option Preferences)
    (su : List SimilarUser) (scored : List ScoredItem) (recs : List RankedResult)
    (hscored : scoreCandidates s q = .ok scored)
    (hrecs : mapE (finishItem q) (boostFrom su rnd 0 scored) = .ok recs) :
    List.Sublist (recs.map (fun r => r.fragrance)) s.fragranceDatabase := by
  have h1 : recs.map (fun r => r.fragrance)
      = (boostFrom su rnd 0 scored).map (fun b => b.fragrance) :=
    mapE_map_eq (finishItem q) (fun r => r.fragrance) (fun b => b.fragrance)
      (fun x y hxy => (finishItem_ok q x y hxy).1) _ recs hrecs
  rw [h1, boostFrom_map_fragrance]
  exact scoreCandidates_sublist s q scored hscored

theorem sorted_by_confidence (recs : List RankedResult)
    (hfin : ∀ r ∈ recs, r.confidence.within 0 100) (e : Option Int) :
    (slice0 (jsSort byConfidence recs) e).Pairwise
      (fun a b => a.confidence.ge b.confidence = true) := by
  have hkey : (jsSort byConfidence recs).Pairwise
      (fun a b => confidenceValue b ≤ confidenceValue a) := by
    apply jsSort_pairwise_of_key
    intro a ha b hb
    simp only [byConfidence, confidence_eq_value a (hfin a ha),
      confidence_eq_value b (hfin b hb), JsNum.sub]
  have hsl := List.Pairwise.sublist (slice0_sublist (jsSort byConfidence recs) e) hkey
  refine List.Pairwise.imp_of_mem ?_ hsl
  intro a b ha hb hab
  have ha1 : a ∈ recs := (mem_jsSort _ _ _).mp ((slice0_sublist _ _).subset ha)
  have hb1 : b ∈ recs := (mem_jsSort _ _ _).mp ((slice0_sublist _ _).subset hb)
  rw [confidence_eq_value a (hfin a ha1), confidence_eq_value b (hfin b hb1)]
  simpa [JsNum.ge] using hab

theorem stable_by_confidence (recs : List RankedResult) (e : Option Int) (c : JsNum) :
    List.Sublist ((slice0 (jsSort byConfidence recs) e).filter (fun r => decide (r.confidence = c)))
      recs := by
  have heq : (jsSort byConfidence recs).filter (fun r => decide (r.confidence = c))
      = recs.filter (fun r => decide (r.confidence = c)) := by
    apply jsSort_filter_eq
    intro a _ b _ ha hb
    have ha1 : a.confidence = c := of_decide_eq_true ha
    have hb1 : b.confidence = c := of_decide_eq_true hb
    cases c with
    | nan => simp [byConfidence, ha1, hb1, JsNum.sub, JsNum.gt]
    | fin v => simp [byConfidence, ha1, hb1, JsNum.sub, JsNum.gt]
  have h1 := (slice0_sublist (jsSort byConfidence recs) e).filter
    (fun r => decide (r.confidence = c))
  rw [heq] at h1
  exact h1.trans (List.filter_sublist recs)

theorem fallback_sorted_stable (s : Service) (e : Option Int) :
    (getFallbackRecommendations s e).1.Pairwise
      (fun a b => a.confidence.ge b.confidence = true) ∧
    ∀ c : JsNum, List.Sublist
      (((getFallbackRecommendations s e).1.filter (fun r => decide (r.confidence = c))).map
        (fun r => r.fragrance)) s.fragranceDatabase := by
  simp only [getFallbackRecommendations]
  constructor
  · apply List.Pairwise.map
    rotate_left
    · exact List.Pairwise.sublist (slice0_sublist _ e)
        (jsSort_pairwise_of_key byPopularity (fun f => f.popularity) s.fragranceDatabase
          (fun a _ b _ => byPopularity_eq a b))
    · intro a b hab
      simp only [fallbackItem, JsNum.ge, decide_eq_true_eq]
      linarith
  · intro c
    rw [List.filter_map, List.map_map]
    have hid : ((fun r : RankedResult => r.fragrance) ∘ fallbackItem) = id := rfl
    rw [hid, List.map_id]
    have heq : (jsSort byPopularity s.fragranceDatabase).filter
          ((fun r : RankedResult => decide (r.confidence = c)) ∘ fallbackItem)
        = s.fragranceDatabase.filter
          ((fun r : RankedResult => decide (r.confidence = c)) ∘ fallbackItem) := by
      apply jsSort_filter_eq
      intro a _ b _ ha hb
      have ha1 : JsNum.fin (a.popularity * 100) = c := of_decide_eq_true ha
      have hb1 : JsNum.fin (b.popularity * 100) = c := of_decide_eq_true hb
      rw [← hb1] at ha1
      have hab : a.popularity * 100 = b.popularity * 100 := JsNum.fin.inj ha1
      have : a.popularity = b.popularity := by linarith
      simp [byPopularity_eq, JsNum.gt, this]
    have h1 := (slice0_sublist (jsSort byPopularity s.fragranceDatabase) e).filter
      ((fun r : RankedResult => decide (r.confidence = c)) ∘ fallbackItem)
    rw [heq] at h1
    exact h1.trans (List.filter_sublist _)

/-- C6: when the candidate scores are numbers (always so with no model loaded), the list
returned by `generateRecommendations` is in non-increasing confidence order, and for every
confidence value the results that have it appear in the order of their items in the catalog
(the items of the results with one confidence form a sublist of the catalog). -/
theorem results_sorted_stable (s : Service) (now : Nat) (rnd : Nat → ℚ)
    (q : Option Preferences) (userId : UserId) (limit : Option Int)
    (hmode : s.model = none ∨ numericScores s q) :
    ∃ l, (generateRecommendations s now rnd q userId limit).1 = .ok l ∧
      l.Pairwise (fun a b => a.confidence.ge b.confidence = true) ∧
      ∀ c : JsNum, List.Sublist
        ((l.filter (fun r => decide (r.confidence = c))).map (fun r => r.fragrance))
        s.fragranceDatabase := by
  rcases generateRecommendations_cases s now rnd q userId limit with ⟨l, hp, hg⟩ | ⟨e, _, hg⟩
  · obtain ⟨scored, su, recs, hscored, _, hrecs, rfl⟩ := pipeline_ok _ rnd q userId _ l hp
    have hfin := records_confidence_within su rnd q scored recs
      (numericScores_of_mode s q hmode scored hscored) hrecs
    have hsub := records_in_catalog_order (afterProfileUpdate s now userId q) rnd q su
      scored recs hscored hrecs
    refine ⟨_, by rw [hg], sorted_by_confidence recs hfin _, fun c => ?_⟩
    exact ((stable_by_confidence recs _ c).map _).trans hsub
  · exact ⟨_, by rw [hg], (fallback_sorted_stable s _).1, (fallback_sorted_stable s _).2⟩

/-- The order of the results on the fresh service for the sample query. -/
theorem results_sorted_stable_witness :
    ∃ l, (generateRecommendations Service.initial 0 (fun _ => 1 / 2) (some sampleQuery) 1
        none).1 = .ok l ∧
      l.Pairwise (fun a b => a.confidence.ge b.confidence = true) ∧
      ∀ c : JsNum, List.Sublist
        ((l.filter (fun r => decide (r.confidence = c))).map (fun r => r.fragrance))
        Service.initial.fragranceDatabase :=
  results_sorted_stable Service.initial 0 (fun _ => 1 / 2) (some sampleQuery) 1 none
    (Or.inl rfl)

/-! ## Well-formed queries are scored without an exception -/

theorem someE_total {α : Type} (f : α → Except JsError Bool) :
    ∀ (xs : List α), (∀ x ∈ xs, ∃ b, f x = .ok b) → ∃ b, someE f xs = .ok b
  | [], _ => ⟨false, rfl⟩
  | a :: as, h => by
    obtain ⟨b, hb⟩ := h a (List.mem_cons_self _ _)
    cases b with
    | true => exact ⟨true, by simp [someE, hb]⟩
    | false =>
      obtain ⟨c, hc⟩ := someE_total f as (fun x hx => h x (List.mem_cons_of_mem _ hx))
      exact ⟨c, by simp [someE, hb, hc]⟩

theorem filterE_total {α : Type} (f : α → Except JsError Bool) :
    ∀ (xs : List α), (∀ x ∈ xs, ∃ b, f x = .ok b) → ∃ ys, filterE f xs = .ok ys
  | [], _ => ⟨[], rfl⟩
  | a :: as, h => by
    obtain ⟨b, hb⟩ := h a (List.mem_cons_self _ _)
    obtain ⟨bs, hbs⟩ := filterE_total f as (fun x hx => h x (List.mem_cons_of_mem _ hx))
    exact ⟨if b then a :: bs else bs, by simp [filterE, hb, hbs]⟩

theorem toLowerCase_of_isStr (v : JsVal) (h : v.isStr = true) :
    ∃ t, v.toLowerCase = .ok t := by
  cases v <;> simp [JsVal.isStr] at h
  exact ⟨_, rfl⟩

theorem seasonFactor_total (p : Preferences) (f : Fragrance)
    (h : (p.season.isStr || !p.season.truthy) = true) : ∃ v, seasonFactor p f = .ok v := by
  unfold seasonFactor
  by_cases ht : p.season.truthy = true
  · have hs : p.season.isStr = true := by simpa [ht] using h
    obtain ⟨t, ht2⟩ := toLowerCase_of_isStr _ hs
    rw [if_pos ht, ht2]
    dsimp only
    split <;> exact ⟨_, rfl⟩
  · rw [if_neg ht]
    exact ⟨_, rfl⟩

theorem occasionFactor_total (p : Preferences) (f : Fragrance)
    (h : (p.occasion.isStr || !p.occasion.truthy) = true) : ∃ v, occasionFactor p f = .ok v := by
  unfold occasionFactor
  by_cases ht : p.occasion.truthy = true
  · have hs : p.occasion.isStr = true := by simpa [ht] using h
    obtain ⟨t, ht2⟩ := toLowerCase_of_isStr _ hs
    rw [if_pos ht, ht2]
    dsimp only
    split <;> exact ⟨_, rfl⟩
  · rw [if_neg ht]
    exact ⟨_, rfl⟩

theorem noteFactor_total (p : Preferences) (f : Fragrance)
    (h : (match p.favoriteNotes with
          | .absent => true
          | .arr notes => notes.all JsVal.isStr
          | .nonArray => false) = true) : ∃ v, noteFactor p f = .ok v := by
  unfold noteFactor
  cases hn : p.favoriteNotes with
  | absent => exact ⟨_, rfl⟩
  | nonArray => exact ⟨_, rfl⟩
  | arr favs =>
    rw [hn] at h
    dsimp only at h ⊢
    have hall : ∀ n ∈ favs, n.isStr = true := List.all_eq_true.mp h
    split
    · have hfil : ∃ ys, filterE (noteMatches favs) f.notes = .ok ys := by
        apply filterE_total
        intro note _
        unfold noteMatches
        apply someE_total
        intro n hn2
        obtain ⟨t, ht⟩ := toLowerCase_of_isStr n (hall n hn2)
        rw [ht]
        exact ⟨_, rfl⟩
      obtain ⟨ys, hys⟩ := hfil
      rw [hys]
      exact ⟨_, rfl⟩
    · exact ⟨_, rfl⟩

theorem priceBounds_total (v : JsVal)
    (h : (match v with
          | .str r => decide (r ∉ objectPrototypeKeys)
          | w => !w.truthy) = true) : ∃ b, priceBounds v = .ok b := by
  cases v with
  | str r =>
    have hr : r ∉ objectPrototypeKeys := of_decide_eq_true h
    simp only [priceBounds, if_neg hr]
    split_ifs <;> exact ⟨_, rfl⟩
  | undefined => exact ⟨_, rfl⟩
  | null => exact ⟨_, rfl⟩
  | bool b => exact ⟨_, rfl⟩
  | num x => exact ⟨_, rfl⟩
  | obj r => exact ⟨_, rfl⟩

theorem priceFactor_total (p : Preferences) (f : Fragrance)
    (h : (match p.priceRange with
          | .str r => decide (r ∉ objectPrototypeKeys)
          | w => !w.truthy) = true) : ∃ v, priceFactor p f = .ok v := by
  unfold priceFactor
  split
  · obtain ⟨b, hb⟩ := priceBounds_total _ h
    unfold calculatePriceScore
    rw [hb]
    exact ⟨_, rfl⟩
  · exact ⟨_, rfl⟩

theorem intensityNum_total (x : JsIntensity) (h : x ≠ .unconvertible) :
    ∃ v, intensityNum x = .ok v := by
  cases x with
  | absent => exact ⟨_, rfl⟩
  | num q => exact ⟨_, rfl⟩
  | unconvertible => exact absurd rfl h

theorem intensityFactor_total (p : Preferences) (f : Fragrance)
    (h : p.intensity ≠ .unconvertible) : ∃ v, intensityFactor p f = .ok v := by
  obtain ⟨x, hx⟩ := intensityNum_total p.intensity h
  unfold intensityFactor intensityScore
  rw [hx]
  exact ⟨_, rfl⟩

theorem wellFormed_parts (p : Preferences) (h : p.wellFormed = true) :
    (p.season.isStr || !p.season.truthy) = true ∧
    (p.occasion.isStr || !p.occasion.truthy) = true ∧
    (match p.priceRange with
      | .str r => decide (r ∉ objectPrototypeKeys)
      | w => !w.truthy) = true ∧
    (match p.favoriteNotes with
      | .absent => true
      | .arr notes => notes.all JsVal.isStr
      | .nonArray => false) = true ∧
    p.intensity ≠ .unconvertible := by
  unfold Preferences.wellFormed at h
  simp only [Bool.and_eq_true] at h
  refine ⟨h.1.1.1.1, h.1.1.1.2, h.1.1.2, h.1.2, ?_⟩
  intro hi
  have h5 := h.2
  rw [hi] at h5
  cases h5

/-- A well-formed query is typed. -/
theorem wellFormed_typed (p : Preferences) (h : p.wellFormed = true) : p.typed = true := by
  obtain ⟨_, _, _, h4, h5⟩ := wellFormed_parts p h
  unfold Preferences.typed
  rw [Bool.and_eq_true]
  refine ⟨decide_eq_true h5, decide_eq_true ?_⟩
  intro hn
  rw [hn] at h4
  cases h4

theorem scoreFragrance_total (p : Preferences) (f : Fragrance) (h : p.wellFormed = true) :
    ∃ sc, scoreFragrance (some p) f = .ok sc := by
  obtain ⟨h1, h2, h3, h4, h5⟩ := wellFormed_parts p h
  obtain ⟨v1, e1⟩ := seasonFactor_total p f h1
  obtain ⟨v2, e2⟩ := occasionFactor_total p f h2
  obtain ⟨v3, e3⟩ := intensityFactor_total p f h5
  obtain ⟨v4, e4⟩ := noteFactor_total p f h4
  obtain ⟨v5, e5⟩ := priceFactor_total p f h3
  unfold scoreFragrance
  simp only [e1, e2, e3, e4, e5]
  exact ⟨_, rfl⟩

theorem finishItem_total (p : Preferences) (b : BoostedItem) (h : p.wellFormed = true) :
    ∃ r, finishItem (some p) b = .ok r := by
  obtain ⟨_, _, h3, _, _⟩ := wellFormed_parts p h
  have hb : ∃ l, budgetLimited (some p) = .ok l := by
    unfold budgetLimited
    dsimp only
    cases hv : p.priceRange with
    | str r => split <;> exact ⟨_, rfl⟩
    | undefined => exact ⟨_, rfl⟩
    | null => exact ⟨_, rfl⟩
    | bool b =>
      rw [hv] at h3
      cases b with
      | true => simp [JsVal.truthy] at h3
      | false => exact ⟨_, rfl⟩
    | num x =>
      rw [hv] at h3
      have hx : x = 0 := by simpa [JsVal.truthy] using h3
      subst hx
      exact ⟨false, by simp [JsVal.truthy]⟩
    | obj r =>
      rw [hv] at h3
      simp [JsVal.truthy] at h3
  obtain ⟨l, hl⟩ := hb
  unfold finishItem calculateConfidence
  simp only [hl]
  exact ⟨_, rfl⟩

/-! ## Length of the delivered list -/

theorem fallback_length (s : Service) (limit : Int) (h : 0 ≤ limit) :
    (getFallbackRecommendations s (some limit)).1.length
      = Nat.min limit.toNat s.fragranceDatabase.length := by
  simp only [getFallbackRecommendations, List.length_map, slice0_length_of_nonneg _ _ h,
    jsSort_length]

theorem pipeline_length (s : Service) (rnd : Nat → ℚ) (q : Option Preferences)
    (userId : UserId) (limit : Int) (h : 0 ≤ limit) (l : List RankedResult)
    (scored : List ScoredItem) (hl : pipeline s rnd q userId limit = .ok l)
    (hscored : scoreCandidates s q = .ok scored) :
    l.length = Nat.min limit.toNat scored.length := by
  obtain ⟨scored2, su, recs, hscored2, _, hrecs, rfl⟩ := pipeline_ok s rnd q userId limit l hl
  rw [hscored] at hscored2
  cases hscored2
  rw [slice0_length_of_nonneg _ _ h, jsSort_length, mapE_ok_length _ _ _ hrecs,
    boostFrom_length]

/-- C8: for every limit `>= 0` the list returned by `generateRecommendations` has at most
`limit` entries: exactly `min(limit, number of scored candidates)` when the pipeline
succeeds and `min(limit, catalog size)` on the fallback path; a call without a limit is
the call with limit 5; and the fallback list itself has `min(limit, catalog size)`
entries. -/
theorem result_length (s : Service) (now : Nat) (rnd : Nat → ℚ) (q : Option Preferences)
    (userId : UserId) (limit : Int) (h : 0 ≤ limit) :
    (∃ l, (generateRecommendations s now rnd q userId (some limit)).1 = .ok l ∧
      l.length ≤ limit.toNat ∧
      (∀ l0 scored, pipeline (afterProfileUpdate s now userId q) rnd q userId limit = .ok l0 →
        scoreCandidates s q = .ok scored → l.length = Nat.min limit.toNat scored.length) ∧
      (∀ e, pipeline (afterProfileUpdate s now userId q) rnd q userId limit = .error e →
        l.length = Nat.min limit.toNat s.fragranceDatabase.length)) ∧
    generateRecommendations s now rnd q userId none
      = generateRecommendations s now rnd q userId (some 5) ∧
    (getFallbackRecommendations s (some limit)).1.length
      = Nat.min limit.toNat s.fragranceDatabase.length := by
  refine ⟨?_, rfl, fallback_length s limit h⟩
  rcases generateRecommendations_cases s now rnd q userId (some limit) with
    ⟨l, hp, hg⟩ | ⟨e, hp, hg⟩
  · have hp1 : pipeline (afterProfileUpdate s now userId q) rnd q userId limit = .ok l := hp
    obtain ⟨scored, _, recs, hscored, _, _, _⟩ := pipeline_ok _ rnd q userId limit l hp1
    have hlen := pipeline_length _ rnd q userId limit h l scored hp1 hscored
    refine ⟨l, by rw [hg], ?_, ?_, ?_⟩
    · rw [hlen]
      exact Nat.min_le_left _ _
    · intro l0 scored2 _ hsc2
      exact pipeline_length _ rnd q userId limit h l scored2 hp1 hsc2
    · intro e he
      rw [hp1] at he
      cases he
  · have hp1 : pipeline (afterProfileUpdate s now userId q) rnd q userId limit = .error e := hp
    have hlen := fallback_length s limit h
    refine ⟨_, by rw [hg], ?_, ?_, ?_⟩
    · show (getFallbackRecommendations s (some limit)).1.length ≤ limit.toNat
      rw [hlen]
      exact Nat.min_le_left _ _
    · intro l0 _ hl0
      rw [hp1] at hl0
      cases hl0
    · intro _ _
      exact hlen

/-- The length bound on the fresh service for the sample query and limit 1. -/
theorem result_length_witness :
    (0 : Int) ≤ 1 ∧
    (∃ l, (generateRecommendations Service.initial 0 (fun _ => 1 / 2) (some sampleQuery) 1
        (some 1)).1 = .ok l ∧
      l.length ≤ (1 : Int).toNat ∧
      (∀ l0 scored, pipeline (afterProfileUpdate Service.initial 0 1 (some sampleQuery))
          (fun _ => 1 / 2) (some sampleQuery) 1 1 = .ok l0 →
        scoreCandidates Service.initial (some sampleQuery) = .ok scored →
        l.length = Nat.min (1 : Int).toNat scored.length) ∧
      (∀ e, pipeline (afterProfileUpdate Service.initial 0 1 (some sampleQuery))
          (fun _ => 1 / 2) (some sampleQuery) 1 1 = .error e →
        l.length = Nat.min (1 : Int).toNat Service.initial.fragranceDatabase.length)) ∧
    generateRecommendations Service.initial 0 (fun _ => 1 / 2) (some sampleQuery) 1 none
      = generateRecommendations Service.initial 0 (fun _ => 1 / 2) (some sampleQuery) 1 (some 5) ∧
    (getFallbackRecommendations Service.initial (some 1)).1.length
      = Nat.min (1 : Int).toNat Service.initial.fragranceDatabase.length :=
  ⟨by decide, result_length Service.initial 0 (fun _ => 1 / 2) (some sampleQuery) 1 1 (by decide)⟩

/-! ## Similarity -/

theorem commonNotes_zero_of_max_zero (notes1 notes2 : List JsVal)
    (h : Max.max notes1.length notes2.length = 0) : (commonNotes notes1 notes2).length = 0 := by
  have h1 : notes1.length = 0 := by
    have := le_max_left notes1.length notes2.length
    omega
  rw [List.length_eq_zero] at h1
  subst h1
  rfl

/-- C9 (the code is not symmetric): with favourite notes `["citrus", "citrus"]` against
`["citrus"]` the common-note count is 2 in one direction and 1 in the other, so the
similarity is `0.25` one way and `0.2125` the other way. -/
theorem calculateUserSimilarity_not_symmetric :
    calculateUserSimilarity (profileOf citrusTwice) (profileOf citrusOnce)
      = .ok (.fin (1 / 4)) ∧
    calculateUserSimilarity (profileOf citrusOnce) (profileOf citrusTwice)
      = .ok (.fin (17 / 80)) ∧
    calculateUserSimilarity (profileOf citrusTwice) (profileOf citrusOnce)
      ≠ calculateUserSimilarity (profileOf citrusOnce) (profileOf citrusTwice) := by
  decide!

/-- C10 (the code leaves the range): when the latest queries of both profiles have an empty
favourite-note list, the note factor is `0 / 0` and the similarity is `NaN`, which is not a
value between 0 and 1. -/
theorem calculateUserSimilarity_nan :
    calculateUserSimilarity (profileOf noFavorites) (profileOf noFavorites) = .ok .nan ∧
    ∀ v, calculateUserSimilarity (profileOf noFavorites) (profileOf noFavorites) = .ok v →
      ¬ v.within 0 1 := by
  have h : calculateUserSimilarity (profileOf noFavorites) (profileOf noFavorites)
      = .ok .nan := by decide!
  refine ⟨h, fun v hv => ?_⟩
  rw [h] at hv
  cases hv
  exact fun hw => hw

/-! ## Profile history -/

theorem get_set_self (m : ProfileStore) (k : UserId) (v : UserProfile) :
    (m.set k v).get k = some v := by
  induction m with
  | nil => simp [ProfileStore.set, ProfileStore.get]
  | cons e rest ih =>
    obtain ⟨k1, v1⟩ := e
    by_cases hk : k1 = k
    · simp [ProfileStore.set, ProfileStore.get, hk]
    · simp [ProfileStore.set, ProfileStore.get, hk, ih]

theorem get_mem (m : ProfileStore) (k : UserId) (v : UserProfile) (h : m.get k = some v) :
    (k, v) ∈ m := by
  induction m with
  | nil => simp [ProfileStore.get] at h
  | cons e rest ih =>
    obtain ⟨k1, v1⟩ := e
    by_cases hk : k1 = k
    · simp only [ProfileStore.get, hk, if_true, Option.some.injEq] at h
      subst h
      subst hk
      exact List.mem_cons_self _ _
    · simp only [ProfileStore.get, hk, if_false] at h
      exact List.mem_cons_of_mem _ (ih h)

theorem mem_set (m : ProfileStore) (k : UserId) (v : UserProfile) (e : UserId × UserProfile)
    (h : e ∈ m.set k v) : e ∈ m ∨ e = (k, v) := by
  induction m with
  | nil =>
    simp only [ProfileStore.set, List.mem_singleton] at h
    exact Or.inr h
  | cons e1 rest ih =>
    obtain ⟨k1, v1⟩ := e1
    by_cases hk : k1 = k
    · simp only [ProfileStore.set, hk, if_true, List.mem_cons] at h
      rcases h with h | h
      · exact Or.inr h
      · exact Or.inl (List.mem_cons_of_mem _ h)
    · simp only [ProfileStore.set, hk, if_false, List.mem_cons] at h
      rcases h with h | h
      · exact Or.inl (h ▸ List.mem_cons_self _ _)
      · rcases ih h with h2 | h2
        · exact Or.inl (List.mem_cons_of_mem _ h2)
        · exact Or.inr h2

/-- The slice `l.slice(-10)` taken only when the array is longer than 10 is the drop of
all but the last 10 entries in every case. -/
theorem keep_last_ten {α : Type} (l : List α) :
    (if l.length > 10 then l.drop (l.length - 10) else l) = l.drop (l.length - 10) := by
  split
  · rfl
  · rename_i h
    have : l.length - 10 = 0 := by omega
    rw [this, List.drop_zero]

theorem drop_last_ten_append {α : Type} (a b : List α) :
    (a.drop (a.length - 10) ++ b).drop ((a.drop (a.length - 10) ++ b).length - 10)
      = (a ++ b).drop ((a ++ b).length - 10) := by
  by_cases h : a.length ≤ 10
  · have : a.length - 10 = 0 := by omega
    rw [this, List.drop_zero]
  · have hd := List.length_drop (a.length - 10) a
    have hlen : (a.drop (a.length - 10) ++ b).length - 10 = b.length := by
      rw [List.length_append]
      omega
    have hlen2 : (a ++ b).length - 10 = (a.length - 10) + b.length := by
      rw [List.length_append]
      omega
    have h3 : (a ++ b).drop (a.length - 10) = a.drop (a.length - 10) ++ b :=
      List.drop_append_of_le_length (by omega)
    rw [hlen, hlen2, ← List.drop_drop, h3]

/-- After an update the user has a profile, whose history is the old history with the new
entry appended, cut to its last 10 entries. -/
theorem updateUserProfile_get (profiles : ProfileStore) (now : Nat) (userId : UserId)
    (q : Option Preferences) :
    ∃ profile, (updateUserProfile profiles now userId q).get userId = some profile ∧
      profile.preferences =
        (((profiles.get userId).getD ⟨[], [], []⟩).preferences ++ [storedEntry (now, q)]).drop
          ((((profiles.get userId).getD ⟨[], [], []⟩).preferences
              ++ [storedEntry (now, q)]).length - 10) := by
  refine ⟨_, get_set_self _ _ _, ?_⟩
  exact keep_last_ten _

theorem updateUserProfileAll_get (userId : UserId) :
    ∀ (rest : List (Nat × Option Preferences)) (c : Nat × Option Preferences)
      (profiles : ProfileStore),
      ∃ profile, (updateUserProfileAll profiles userId (c :: rest)).get userId = some profile ∧
        profile.preferences =
          (((profiles.get userId).getD ⟨[], [], []⟩).preferences
              ++ (c :: rest).map storedEntry).drop
            ((((profiles.get userId).getD ⟨[], [], []⟩).preferences
                ++ (c :: rest).map storedEntry).length - 10)
  | [], c, profiles => by
    obtain ⟨profile, hget, hprefs⟩ := updateUserProfile_get profiles c.1 userId c.2
    exact ⟨profile, hget, hprefs⟩
  | c2 :: rest, c, profiles => by
    obtain ⟨p1, hget1, hprefs1⟩ := updateUserProfile_get profiles c.1 userId c.2
    obtain ⟨profile, hget, hprefs⟩ :=
      updateUserProfileAll_get userId rest c2 (updateUserProfile profiles c.1 userId c.2)
    refine ⟨profile, hget, ?_⟩
    rw [hprefs, hget1, Option.getD_some, hprefs1, drop_last_ten_append]
    simp only [List.map_cons, List.append_assoc, List.singleton_append]

/-- C11: for every user without a profile and every sequence of more than 10 successive
`updateUserProfile` calls for that user, the resulting history has exactly 10 entries: the
entries of the last 10 calls, in call order, each the query with its timestamp. -/
theorem updateUserProfile_keeps_last_ten (profiles : ProfileStore) (userId : UserId)
    (calls : List (Nat × Option Preferences)) (hnew : profiles.get userId = none)
    (hn : 10 < calls.length) :
    ∃ profile, (updateUserProfileAll profiles userId calls).get userId = some profile ∧
      profile.preferences.length = 10 ∧
      profile.preferences = (calls.drop (calls.length - 10)).map storedEntry := by
  cases calls with
  | nil => simp at hn
  | cons c rest =>
    obtain ⟨profile, hget, hprefs⟩ := updateUserProfileAll_get userId rest c profiles
    rw [hnew] at hprefs
    simp only [Option.getD_none, List.nil_append, List.length_map] at hprefs
    refine ⟨profile, hget, ?_, ?_⟩
    · rw [hprefs, List.length_drop, List.length_map]
      omega
    · rw [hprefs, List.map_drop]

/-- Twelve updates of a new user leave the entries of calls 3 to 12. -/
theorem updateUserProfile_keeps_last_ten_witness :
    ∃ profile, (updateUserProfileAll [] 1 twelveUpdates).get 1 = some profile ∧
      profile.preferences.length = 10 ∧
      profile.preferences = (twelveUpdates.drop (twelveUpdates.length - 10)).map storedEntry :=
  updateUserProfile_keeps_last_ten [] 1 twelveUpdates rfl (by decide)

/-! ## Store invariant -/

theorem historiesBounded_set (m : ProfileStore) (k : UserId) (v : UserProfile)
    (hm : historiesBounded m) (hv : v.preferences.length ≤ 10) :
    historiesBounded (m.set k v) := by
  intro e he
  rcases mem_set m k v e he with h | h
  · exact hm e h
  · rw [h]
    exact hv

theorem historiesBounded_getD (m : ProfileStore) (k : UserId) (hm : historiesBounded m) :
    ((m.get k).getD ⟨[], [], []⟩).preferences.length ≤ 10 := by
  cases hg : m.get k with
  | none => simp
  | some v => exact hm _ (get_mem m k v hg)

theorem historiesBounded_update (m : ProfileStore) (now : Nat) (k : UserId)
    (q : Option Preferences) (hm : historiesBounded m) :
    historiesBounded (updateUserProfile m now k q) := by
  unfold updateUserProfile
  apply historiesBounded_set _ _ _ hm
  have hold := historiesBounded_getD m k hm
  dsimp only
  rw [keep_last_ten, List.length_drop]
  omega

theorem historiesBounded_recordInteraction (s : Service) (now : Nat) (k : UserId)
    (fragranceId interactionType rating : JsVal) (hm : historiesBounded s.userProfiles) :
    historiesBounded (recordInteraction s now k fragranceId interactionType rating).userProfiles := by
  have hset : ∀ r : JsVal, historiesBounded
      (s.userProfiles.set k
        { (s.userProfiles.get k).getD ⟨[], [], []⟩ with
          interactions := ((s.userProfiles.get k).getD ⟨[], [], []⟩).interactions ++
            [⟨fragranceId, interactionType, r, now⟩] }) :=
    fun _ => historiesBounded_set _ _ _ hm (historiesBounded_getD _ k hm)
  unfold recordInteraction updateModelWeights
  dsimp only
  split <;> split <;> exact hset _

theorem generateRecommendations_profiles (s : Service) (now : Nat) (rnd : Nat → ℚ)
    (q : Option Preferences) (userId : UserId) (limit : Option Int) :
    (generateRecommendations s now rnd q userId limit).2.userProfiles
      = updateUserProfile s.userProfiles now userId q := by
  rcases generateRecommendations_cases s now rnd q userId limit with ⟨l, _, hg⟩ | ⟨e, _, hg⟩
  · rw [hg]
    rfl
  · rw [hg]
    rfl

/-- A request leaves the model slot as it was. -/
theorem generateRecommendations_model (s : Service) (now : Nat) (rnd : Nat → ℚ)
    (q : Option Preferences) (userId : UserId) (limit : Option Int) :
    (generateRecommendations s now rnd q userId limit).2.model = s.model := by
  rcases generateRecommendations_cases s now rnd q userId limit with ⟨l, _, hg⟩ | ⟨e, _, hg⟩
  · rw [hg]
    rfl
  · rw [hg]
    rfl

theorem historiesBounded_run (s : Service) (c : Call) (hm : historiesBounded s.userProfiles) :
    historiesBounded (c.run s).userProfiles := by
  cases c with
  | updateUserProfile now userId preferences =>
    exact historiesBounded_update _ now userId preferences hm
  | recordInteraction now userId fragranceId interactionType rating =>
    exact historiesBounded_recordInteraction s now userId fragranceId interactionType rating hm
  | generateRecommendations now rnd userPreferences userId limit =>
    show historiesBounded (generateRecommendations s now rnd userPreferences userId limit).2.userProfiles
    rw [generateRecommendations_profiles]
    exact historiesBounded_update _ now userId userPreferences hm

theorem historiesBounded_runCalls :
    ∀ (calls : List Call) (s : Service), historiesBounded s.userProfiles →
      historiesBounded (runCalls s calls).userProfiles
  | [], _, hm => hm
  | c :: rest, s, hm => historiesBounded_runCalls rest (c.run s) (historiesBounded_run s c hm)

/-- C12: in every state reachable from a service with an empty profile store by any
sequence of `updateUserProfile`, `recordInteraction` and `generateRecommendations` calls,
every profile has at most 10 entries in its preference history. -/
theorem histories_bounded (s0 : Service) (calls : List Call) (h0 : s0.userProfiles = []) :
    ∀ entry ∈ (runCalls s0 calls).userProfiles, entry.2.preferences.length ≤ 10 := by
  apply historiesBounded_runCalls calls s0
  intro e he
  rw [h0] at he
  cases he

/-- The invariant after a recommendation request, an interaction and twelve updates. -/
theorem histories_bounded_witness :
    Service.initial.userProfiles = [] ∧
    ∀ entry ∈ (runCalls Service.initial
        (Call.generateRecommendations 0 (fun _ => 1 / 2) (some sampleQuery) 1 none ::
          Call.recordInteraction 1 2 (.num 3) (.str "like") .undefined ::
          twelveUpdates.map (fun c => Call.updateUserProfile c.1 1 c.2))).userProfiles,
      entry.2.preferences.length ≤ 10 :=
  ⟨rfl, histories_bounded Service.initial _ rfl⟩

/-! ## Rule scoring: determinism, worked scenario, missing fields -/

/-- The method reads the catalog of the service and nothing else. -/
theorem ruleBasedRecommendations_reads_catalog (s : Service) (q : Option Preferences)
    (userId : UserId) (limit : Option Int) :
    s.ruleBasedRecommendations q userId limit
      = ruleBasedRecommendations s.fragranceDatabase q := rfl

/-- C13: rule scoring depends on the catalog and the query only. Two services with the
same catalog (whatever their profile stores and models) return the same list of items,
scores and matching factors for the same query, for every user id and every limit; and
after a request that went through the pipeline, scoring the same query again in the new
state gives the same list as before the request. -/
theorem rule_scoring_independent (s1 s2 : Service) (q : Option Preferences)
    (userId1 userId2 : UserId) (limit1 limit2 : Option Int)
    (hcat : s1.fragranceDatabase = s2.fragranceDatabase) :
    s1.ruleBasedRecommendations q userId1 limit1 = s2.ruleBasedRecommendations q userId2 limit2 ∧
    (∀ (now : Nat) (rnd : Nat → ℚ) (limit : Option Int) (l : List RankedResult),
      pipeline (afterProfileUpdate s1 now userId1 q) rnd q userId1 (limit.getD 5) = .ok l →
      (generateRecommendations s1 now rnd q userId1 limit).2.ruleBasedRecommendations q
          userId1 limit1
        = s1.ruleBasedRecommendations q userId1 limit1) := by
  constructor
  · rw [ruleBasedRecommendations_reads_catalog, ruleBasedRecommendations_reads_catalog, hcat]
  · intro now rnd limit l hl
    rw [ruleBasedRecommendations_reads_catalog, ruleBasedRecommendations_reads_catalog,
      catalog_unchanged_on_success s1 now rnd q userId1 limit l hl]

/-- Two services with the built-in catalog, one with a stored profile, score alike. -/
theorem rule_scoring_independent_witness :
    Service.initial.ruleBasedRecommendations (some sampleQuery) 1 none
      = (Service.mk none [(7, profileOf citrusOnce)]
          initializeFragranceDatabase).ruleBasedRecommendations (some sampleQuery) 2 (some 3) ∧
    (∀ (now : Nat) (rnd : Nat → ℚ) (limit : Option Int) (l : List RankedResult),
      pipeline (afterProfileUpdate Service.initial now 1 (some sampleQuery)) rnd
        (some sampleQuery) 1 (limit.getD 5) = .ok l →
      (generateRecommendations Service.initial now rnd (some sampleQuery) 1
          limit).2.ruleBasedRecommendations (some sampleQuery) 1 none
        = Service.initial.ruleBasedRecommendations (some sampleQuery) 1 none) :=
  rule_scoring_independent Service.initial
    (Service.mk none [(7, profileOf citrusOnce)] initializeFragranceDatabase)
    (some sampleQuery) 1 2 none (some 3) rfl

/-- C14: the worked scenario. For the sample query the built-in item "Sugi Classic" gets
the factor values 25, 20, 13.5, 30 and 10, and its raw score is exactly 98.5 (the cap at
100 does not apply). -/
theorem worked_scenario :
    sugiClassic.name = "Sugi Classic" ∧
    seasonFactor sampleQuery sugiClassic = .ok (25, ["Perfect for spring"]) ∧
    occasionFactor sampleQuery sugiClassic = .ok (20, ["Ideal for daily"]) ∧
    intensityFactor sampleQuery sugiClassic
      = .ok (.fin (27 / 2), ["Perfect intensity level"]) ∧
    noteFactor sampleQuery sugiClassic
      = .ok (30, ["Contains your favorite citrus, woody notes"]) ∧
    priceFactor sampleQuery sugiClassic = .ok (10, ["Within your budget"]) ∧
    scoreFragrance (some sampleQuery) sugiClassic
      = .ok ⟨sugiClassic, .fin (197 / 2),
          ["Perfect for spring", "Ideal for daily", "Perfect intensity level",
           "Contains your favorite citrus, woody notes", "Within your budget"]⟩ ∧
    (25 : ℚ) + 20 + 27 / 2 + 30 + 10 = 197 / 2 := by
  decide!

theorem intensityScore_of_num (p : Preferences) (f : Fragrance) (x : ℚ)
    (hi : p.intensity = .num x) :
    intensityScore p f = .ok (.fin (Max.max 0 (15 - |f.intensity - x| / 10))) := by
  simp only [intensityScore, hi, intensityNum, JsNum.sub, JsNum.abs, JsNum.div, JsNum.max]
  norm_num

theorem intensity_points_le (a x : ℚ) : Max.max 0 (15 - |a - x| / 10) ≤ 15 := by
  apply max_le (by norm_num)
  have := abs_nonneg (a - x)
  linarith

/-- C15: for every query with a numeric intensity, a falsy (absent, `null` or empty) season,
occasion and price range, and an absent or empty favourite-note list, and for every catalog
item: the season, occasion, note and price factors are 0 with no matching-factor string,
scoring does not throw, the score is exactly `max(0, 15 - |item.intensity - intensity| / 10)`,
and the matching-factor list is `["Perfect intensity level"]` when that value exceeds 10 and
empty otherwise. -/
theorem missing_fields_contribute_zero (p : Preferences) (fragrance : Fragrance) (x : ℚ)
    (hseason : p.season.truthy = false) (hoccasion : p.occasion.truthy = false)
    (hprice : p.priceRange.truthy = false)
    (hnotes : p.favoriteNotes = .absent ∨ p.favoriteNotes = .arr [])
    (hintensity : p.intensity = .num x) :
    seasonFactor p fragrance = .ok (0, []) ∧
    occasionFactor p fragrance = .ok (0, []) ∧
    noteFactor p fragrance = .ok (0, []) ∧
    priceFactor p fragrance = .ok (0, []) ∧
    scoreFragrance (some p) fragrance
      = .ok ⟨fragrance, .fin (Max.max 0 (15 - |fragrance.intensity - x| / 10)),
          if Max.max 0 (15 - |fragrance.intensity - x| / 10) > 10 then
            ["Perfect intensity level"] else []⟩ ∧
    ∀ catalog : List Fragrance, ∃ recs, ruleBasedRecommendations catalog (some p) = .ok recs := by
  have h1 : seasonFactor p fragrance = .ok (0, []) := by
    simp [seasonFactor, hseason]
  have h2 : occasionFactor p fragrance = .ok (0, []) := by
    simp [occasionFactor, hoccasion]
  have h4 : ∀ f : Fragrance, noteFactor p f = .ok (0, []) := by
    intro f
    rcases hnotes with h | h <;> simp [noteFactor, h]
  have h5 : ∀ f : Fragrance, priceFactor p f = .ok (0, []) := by
    intro f
    simp [priceFactor, hprice]
  have hscore : ∀ f : Fragrance, scoreFragrance (some p) f
      = .ok ⟨f, .fin (Max.max 0 (15 - |f.intensity - x| / 10)),
          if Max.max 0 (15 - |f.intensity - x| / 10) > 10 then
            ["Perfect intensity level"] else []⟩ := by
    intro f
    have hs : seasonFactor p f = .ok (0, []) := by simp [seasonFactor, hseason]
    have ho : occasionFactor p f = .ok (0, []) := by simp [occasionFactor, hoccasion]
    have hle := intensity_points_le f.intensity x
    simp only [scoreFragrance, hs, ho, h4 f, h5 f, intensityFactor,
      intensityScore_of_num p f x hintensity, JsNum.add, JsNum.min, JsNum.gt]
    have hmin : Min.min 100 (0 + 0 + 0 + Max.max 0 (15 - |f.intensity - x| / 10) + 0 + 0)
        = Max.max 0 (15 - |f.intensity - x| / 10) := by
      rw [min_eq_right (by linarith)]
      ring
    rw [hmin]
    simp
  refine ⟨h1, h2, h4 fragrance, h5 fragrance, hscore fragrance, ?_⟩
  intro catalog
  obtain ⟨scores, hscores⟩ := mapE_total (scoreFragrance (some p)) catalog
    (fun f _ => ⟨_, hscore f⟩)
  exact ⟨scores.filter (fun item => item.score.gt (.fin 30)),
    by simp only [ruleBasedRecommendations, hscores]⟩

/-- The query `{ season: "", occasion: "", intensity: 50, favoriteNotes: [], priceRange: "" }`
of an untouched client form, scored against "Sugi Classic". -/
theorem missing_fields_contribute_zero_witness :
    seasonFactor ⟨.str "", .str "", .num 50, .arr [], .str ""⟩ sugiClassic = .ok (0, []) ∧
    occasionFactor ⟨.str "", .str "", .num 50, .arr [], .str ""⟩ sugiClassic = .ok (0, []) ∧
    noteFactor ⟨.str "", .str "", .num 50, .arr [], .str ""⟩ sugiClassic = .ok (0, []) ∧
    priceFactor ⟨.str "", .str "", .num 50, .arr [], .str ""⟩ sugiClassic = .ok (0, []) ∧
    scoreFragrance (some ⟨.str "", .str "", .num 50, .arr [], .str ""⟩) sugiClassic
      = .ok ⟨sugiClassic, .fin (Max.max 0 (15 - |sugiClassic.intensity - 50| / 10)),
          if Max.max 0 (15 - |sugiClassic.intensity - 50| / 10) > 10 then
            ["Perfect intensity level"] else []⟩ ∧
    ∀ catalog : List Fragrance, ∃ recs,
      ruleBasedRecommendations catalog (some ⟨.str "", .str "", .num 50, .arr [], .str ""⟩)
        = .ok recs :=
  missing_fields_contribute_zero ⟨.str "", .str "", .num 50, .arr [], .str ""⟩ sugiClassic 50
    rfl rfl rfl (Or.inr rfl) rfl

/-- C16 (the rule scorer has no default intensity): the sample query without its intensity
field gives every item the score `NaN`, so the rule scorer returns the empty list, while the
same query with intensity 50 returns two items; the model path does default to 50. -/
theorem missing_intensity_not_defaulted :
    sampleQuery = { sampleQueryNoIntensity with intensity := .num 50 } ∧
    ruleBasedRecommendations initializeFragranceDatabase (some sampleQueryNoIntensity) = .ok [] ∧
    ruleBasedRecommendations initializeFragranceDatabase (some sampleQuery) = .ok sampleScored ∧
    (scoreFragrance (some sampleQueryNoIntensity) sugiClassic).toOption.map (fun r => r.score)
      = some .nan ∧
    (preprocessPreferences (some sampleQueryNoIntensity)).toOption.map (fun x => x.head?)
      = some (some 50) := by
  decide!

/-! ## Confidence formula and explanation -/

theorem budgetLimited_eq (p : Preferences)
    (hlabel : p.priceRange.truthy = true → p.priceRange.isStr = true) :
    budgetLimited (some p) = .ok (labelContainsUnder p) := by
  unfold budgetLimited labelContainsUnder
  dsimp only
  cases hv : p.priceRange with
  | str r =>
    by_cases hr : r = ""
    · subst hr
      simp only [JsVal.truthy]
      decide
    · simp [JsVal.truthy, hr]
  | undefined => rfl
  | null => rfl
  | bool b =>
    cases b with
    | false => rfl
    | true =>
      rw [hv] at hlabel
      exact absurd (hlabel rfl) (by simp [JsVal.isStr])
  | num x =>
    by_cases hx : x = 0
    · subst hx
      simp [JsVal.truthy]
    · rw [hv] at hlabel
      exact absurd (hlabel (by simp [JsVal.truthy, hx])) (by simp [JsVal.isStr])
  | obj ref =>
    rw [hv] at hlabel
    exact absurd (hlabel rfl) (by simp [JsVal.isStr])

/-- C17: for every record with a numeric score and every query whose price range is a label
(a string) or absent, `calculateConfidence` returns the clamp to `[0, 100]` of
`score + popularity * 10 + (rating - 3) * 5 - p`, where `p = 15` if the label contains
`"Under"` and the price is above 150, and `p = 0` otherwise. -/
theorem calculateConfidence_formula (r : BoostedItem) (x : ℚ) (p : Preferences)
    (hx : r.score = .fin x)
    (hlabel : p.priceRange.truthy = true → p.priceRange.isStr = true) :
    calculateConfidence r (some p)
      = .ok (.fin (confidenceFormula x r.fragrance.popularity r.fragrance.reviews
          r.fragrance.price (labelContainsUnder p))) := by
  unfold calculateConfidence confidenceFormula
  simp only [budgetLimited_eq p hlabel, hx, JsNum.add]
  by_cases hc : labelContainsUnder p = true ∧ r.fragrance.price > 150
  · simp only [hc, and_self, if_true, JsNum.sub, JsNum.min, JsNum.max]
  · simp only [hc, if_false, JsNum.min, JsNum.max, sub_zero]

/-- The formula on "Sugi Classic" (price 180) for a query labelled "Under $100". -/
theorem calculateConfidence_formula_witness :
    calculateConfidence sugiBoosted (some underBudgetQuery)
      = .ok (.fin (confidenceFormula 90 sugiBoosted.fragrance.popularity
          sugiBoosted.fragrance.reviews sugiBoosted.fragrance.price
          (labelContainsUnder underBudgetQuery))) :=
  calculateConfidence_formula sugiBoosted 90 underBudgetQuery rfl (fun _ => rfl)

theorem intercalate_go_eq (sep : String) :
    ∀ (parts : List String) (acc a : String),
      String.intercalate.go acc sep (a :: parts) = acc ++ sep ++ strJoin sep (a :: parts)
  | [], acc, a => by
    simp only [String.intercalate.go, strJoin]
  | b :: rest, acc, a => by
    rw [String.intercalate.go, intercalate_go_eq sep rest (acc ++ sep ++ a) b]
    simp only [strJoin, String.append_assoc]

theorem strJoin_eq_intercalate (sep : String) (parts : List String) :
    strJoin sep parts = String.intercalate sep parts := by
  cases parts with
  | nil => rfl
  | cons a rest =>
    cases rest with
    | nil => rfl
    | cons b rest2 =>
      rw [String.intercalate, intercalate_go_eq sep rest2 a b]
      simp only [strJoin, String.append_assoc]

theorem explanationParts_eq (r : BoostedItem) :
    explanationParts r =
      r.matchingFactors
        ++ (if r.fragrance.reviews ≥ 45 / 10 then ["Highly rated by customers"] else [])
        ++ (if r.fragrance.popularity > 8 / 10 then ["Popular choice among users"] else [])
        ++ (if r.collaborativeBoost > 5 then
              ["Loved by users with similar preferences"] else []) := by
  unfold explanationParts
  by_cases h1 : r.fragrance.reviews ≥ 45 / 10 <;>
  by_cases h2 : r.fragrance.popularity > 8 / 10 <;>
  by_cases h3 : r.collaborativeBoost > 5 <;>
  simp [List.filter, h1, h2, h3]

/-- C18: for every record, `generateExplanation` returns the parts joined with `". "` and
closed by one `"."`, the parts being all matching factors, then
`"Highly rated by customers"` iff the rating is at least 4.5, then
`"Popular choice among users"` iff the popularity is above 0.8, then
`"Loved by users with similar preferences"` iff the boost is above 5; with no part at all the
result is `"."`. -/
theorem generateExplanation_spec (r : BoostedItem) :
    generateExplanation r = explanationSpec r ∧
    ("Highly rated by customers" ∈ (explanationParts r).drop r.matchingFactors.length
      ↔ r.fragrance.reviews ≥ 45 / 10) ∧
    ("Popular choice among users" ∈ (explanationParts r).drop r.matchingFactors.length
      ↔ r.fragrance.popularity > 8 / 10) ∧
    ("Loved by users with similar preferences" ∈
        (explanationParts r).drop r.matchingFactors.length
      ↔ r.collaborativeBoost > 5) ∧
    (explanationParts r = [] → generateExplanation r = ".") := by
  have hgen : generateExplanation r = explanationSpec r := by
    unfold generateExplanation explanationSpec
    dsimp only
    rw [explanationParts_eq, strJoin_eq_intercalate]
  have hdrop : (explanationParts r).drop r.matchingFactors.length =
      (if r.fragrance.reviews ≥ 45 / 10 then ["Highly rated by customers"] else [])
        ++ (if r.fragrance.popularity > 8 / 10 then ["Popular choice among users"] else [])
        ++ (if r.collaborativeBoost > 5 then
              ["Loved by users with similar preferences"] else []) := by
    rw [explanationParts_eq, List.append_assoc, List.append_assoc, List.drop_left]
    simp only [List.append_assoc]
  refine ⟨hgen, ?_, ?_, ?_, ?_⟩
  · rw [hdrop]
    by_cases h1 : r.fragrance.reviews ≥ 45 / 10 <;>
    by_cases h2 : r.fragrance.popularity > 8 / 10 <;>
    by_cases h3 : r.collaborativeBoost > 5 <;>
    simp [h1, h2, h3]
  · rw [hdrop]
    by_cases h1 : r.fragrance.reviews ≥ 45 / 10 <;>
    by_cases h2 : r.fragrance.popularity > 8 / 10 <;>
    by_cases h3 : r.collaborativeBoost > 5 <;>
    simp [h1, h2, h3]
  · rw [hdrop]
    by_cases h1 : r.fragrance.reviews ≥ 45 / 10 <;>
    by_cases h2 : r.fragrance.popularity > 8 / 10 <;>
    by_cases h3 : r.collaborativeBoost > 5 <;>
    simp [h1, h2, h3]
  · intro hnil
    rw [hgen, explanationSpec, hnil]
    rfl

/-! ## Similar users -/

/-- The loop returns exactly when every similarity computation it makes returns, and then
its list is the list of candidates. -/
theorem collectSimilarUsers_ok (userId : UserId) (userProfile : UserProfile) :
    ∀ (profiles : ProfileStore) (out : List SimilarUser),
      collectSimilarUsers userId userProfile profiles = .ok out →
      out = similarCandidates profiles userId userProfile ∧
      ∀ entry ∈ profiles, entry.1 ≠ userId →
        ∃ v, calculateUserSimilarity userProfile entry.2 = .ok v
  | [], out, h => by
    simp only [collectSimilarUsers, Except.ok.injEq] at h
    subst h
    exact ⟨rfl, fun _ he => by cases he⟩
  | e :: rest, out, h => by
    unfold collectSimilarUsers at h
    by_cases h1 : e.1 = userId
    · rw [if_neg (not_not.mpr h1)] at h
      obtain ⟨ih1, ih2⟩ := collectSimilarUsers_ok userId userProfile rest out h
      refine ⟨?_, ?_⟩
      · rw [ih1]
        unfold similarCandidates
        rw [List.filter_cons]
        simp [h1]
      · intro entry he hne
        rcases List.mem_cons.mp he with rfl | he
        · exact absurd h1 hne
        · exact ih2 entry he hne
    · rw [if_pos h1] at h
      cases hc : calculateUserSimilarity userProfile e.2 with
      | error err =>
        rw [hc] at h
        cases h
      | ok sim =>
        rw [hc] at h
        dsimp only at h
        cases hr : collectSimilarUsers userId userProfile rest with
        | error err =>
          rw [hr] at h
          cases h
        | ok more =>
          rw [hr] at h
          simp only [Except.ok.injEq] at h
          obtain ⟨ih1, ih2⟩ := collectSimilarUsers_ok userId userProfile rest more hr
          have hsim : similarityOf userProfile e.2 = sim := by
            unfold similarityOf
            rw [hc]
          refine ⟨?_, ?_⟩
          · rw [← h, ih1]
            unfold similarCandidates
            rw [List.filter_cons]
            by_cases h2 : sim.gt (.fin (6 / 10)) = true
            · simp [h1, h2, hsim]
            · simp [h1, h2, hsim]
          · intro entry he hne
            rcases List.mem_cons.mp he with rfl | he
            · exact ⟨sim, hc⟩
            · exact ih2 entry he hne

theorem collectSimilarUsers_total (userId : UserId) (userProfile : UserProfile) :
    ∀ (profiles : ProfileStore),
      (∀ entry ∈ profiles, entry.1 ≠ userId →
        ∃ v, calculateUserSimilarity userProfile entry.2 = .ok v) →
      ∃ out, collectSimilarUsers userId userProfile profiles = .ok out
  | [], _ => ⟨[], rfl⟩
  | e :: rest, h => by
    obtain ⟨more, hmore⟩ := collectSimilarUsers_total userId userProfile rest
      (fun entry he hne => h entry (List.mem_cons_of_mem _ he) hne)
    unfold collectSimilarUsers
    by_cases h1 : e.1 = userId
    · rw [if_neg (not_not.mpr h1)]
      exact ⟨more, hmore⟩
    · obtain ⟨v, hv⟩ := h e (List.mem_cons_self _ _) h1
      rw [if_pos h1, hv, hmore]
      exact ⟨_, rfl⟩

theorem similarCandidates_mem (profiles : ProfileStore) (userId : UserId)
    (userProfile : UserProfile) (u : SimilarUser)
    (hu : u ∈ similarCandidates profiles userId userProfile) :
    u.userId ≠ userId ∧ u.similarity.gt (.fin (6 / 10)) = true := by
  unfold similarCandidates at hu
  rw [List.mem_map] at hu
  obtain ⟨e, he, rfl⟩ := hu
  rw [List.mem_filter, Bool.and_eq_true] at he
  exact ⟨of_decide_eq_true he.2.1, he.2.2⟩

theorem similarity_eq_value (u : SimilarUser) (h : u.similarity.gt (.fin (6 / 10)) = true) :
    u.similarity = .fin (similarityValue u) := by
  unfold similarityValue
  cases hs : u.similarity with
  | nan => rw [hs] at h; simp [JsNum.gt] at h
  | fin v => rfl

/-- C19: for every profile store and user id, `findSimilarUsers(userId)` is the empty list
when the user has no profile, and otherwise every list it returns is the first 5 entries of
the stable descending-by-similarity sort (`sorted`: a permutation, in non-increasing
similarity order, entries of equal similarity in store order) of the candidates, which are,
in store order, all pairs `(otherUserId, similarity)` with `otherUserId != userId` and
`similarity > 0.6`; it returns exactly when the similarity to every other user is computed
without an exception; the result never contains `userId` itself. -/
theorem findSimilarUsers_spec (profiles : ProfileStore) (userId : UserId) :
    (profiles.get userId = none → findSimilarUsers profiles userId = .ok []) ∧
    (∀ userProfile, profiles.get userId = some userProfile →
      (∀ out, findSimilarUsers profiles userId = .ok out →
        ∃ sorted : List SimilarUser,
          sorted.Perm (similarCandidates profiles userId userProfile) ∧
          sorted.Pairwise (fun a b => a.similarity.ge b.similarity = true) ∧
          (∀ v : JsNum, sorted.filter (fun u => decide (u.similarity = v))
            = (similarCandidates profiles userId userProfile).filter
                (fun u => decide (u.similarity = v))) ∧
          out = sorted.take 5) ∧
      ((∃ out, findSimilarUsers profiles userId = .ok out) ↔
        ∀ entry ∈ profiles, entry.1 ≠ userId →
          ∃ v, calculateUserSimilarity userProfile entry.2 = .ok v)) ∧
    (∀ out, findSimilarUsers profiles userId = .ok out → ∀ u ∈ out,
      u.userId ≠ userId ∧ u.similarity.gt (.fin (6 / 10)) = true) := by
  have hsome : ∀ userProfile, profiles.get userId = some userProfile →
      ∀ out, findSimilarUsers profiles userId = .ok out →
        out = (jsSort (fun a b : SimilarUser => JsNum.sub b.similarity a.similarity)
            (similarCandidates profiles userId userProfile)).take 5 ∧
        ∀ entry ∈ profiles, entry.1 ≠ userId →
          ∃ v, calculateUserSimilarity userProfile entry.2 = .ok v := by
    intro userProfile hget out hout
    unfold findSimilarUsers at hout
    rw [hget] at hout
    dsimp only at hout
    cases hc : collectSimilarUsers userId userProfile profiles with
    | error err =>
      rw [hc] at hout
      cases hout
    | ok similarUsers =>
      rw [hc] at hout
      simp only [Except.ok.injEq] at hout
      obtain ⟨h1, h2⟩ := collectSimilarUsers_ok userId userProfile profiles similarUsers hc
      refine ⟨?_, h2⟩
      rw [← hout, h1, slice0_eq_take _ 5 (by decide)]
      rfl
  refine ⟨?_, ?_, ?_⟩
  · intro hnone
    unfold findSimilarUsers
    rw [hnone]
  · intro userProfile hget
    refine ⟨?_, ?_⟩
    · intro out hout
      refine ⟨jsSort (fun a b : SimilarUser => JsNum.sub b.similarity a.similarity)
        (similarCandidates profiles userId userProfile), jsSort_perm _ _, ?_, ?_,
        (hsome userProfile hget out hout).1⟩
      · have hkey := jsSort_pairwise_of_key
          (fun a b : SimilarUser => JsNum.sub b.similarity a.similarity) similarityValue
          (similarCandidates profiles userId userProfile) (by
            intro a ha b hb
            show JsNum.sub b.similarity a.similarity
              = .fin (similarityValue b - similarityValue a)
            rw [similarity_eq_value a (similarCandidates_mem _ _ _ a ha).2,
              similarity_eq_value b (similarCandidates_mem _ _ _ b hb).2]
            rfl)
        refine List.Pairwise.imp_of_mem ?_ hkey
        intro a b ha hb hab
        have ha1 := (similarCandidates_mem _ _ _ a ((mem_jsSort _ _ _).mp ha)).2
        have hb1 := (similarCandidates_mem _ _ _ b ((mem_jsSort _ _ _).mp hb)).2
        rw [similarity_eq_value a ha1, similarity_eq_value b hb1]
        simpa [JsNum.ge] using hab
      · intro v
        apply jsSort_filter_eq
        intro a _ b _ ha hb
        have ha1 : a.similarity = v := of_decide_eq_true ha
        have hb1 : b.similarity = v := of_decide_eq_true hb
        cases v with
        | nan => simp [ha1, hb1, JsNum.sub, JsNum.gt]
        | fin q => simp [ha1, hb1, JsNum.sub, JsNum.gt]
    · constructor
      · rintro ⟨out, hout⟩
        exact (hsome userProfile hget out hout).2
      · intro hall
        obtain ⟨similarUsers, hc⟩ :=
          collectSimilarUsers_total userId userProfile profiles hall
        unfold findSimilarUsers
        rw [hget]
        dsimp only
        rw [hc]
        exact ⟨_, rfl⟩
  · intro out hout u hu
    cases hget : profiles.get userId with
    | none =>
      unfold findSimilarUsers at hout
      rw [hget] at hout
      simp only [Except.ok.injEq] at hout
      subst hout
      cases hu
    | some userProfile =>
      rw [(hsome userProfile hget out hout).1] at hu
      exact similarCandidates_mem _ _ _ u ((mem_jsSort _ _ _).mp (List.mem_of_mem_take hu))

/-! ## The similarity formula -/

/-- With an empty history on either side the similarity is 0. -/
theorem calculateUserSimilarity_empty (p other : UserProfile) (h : p.preferences = []) :
    calculateUserSimilarity p other = .ok (.fin 0) ∧
    calculateUserSimilarity other p = .ok (.fin 0) := by
  unfold calculateUserSimilarity
  rw [h]
  constructor
  · rfl
  · cases other.preferences.getLast? <;> rfl

/-- Only the latest entry of each history is read: whatever the older entries (and the
interaction and purchase logs), the similarity is that of the two latest queries. -/
theorem calculateUserSimilarity_last (older1 older2 : List StoredPreference)
    (e1 e2 : StoredPreference) (i1 i2 : List Interaction) (u1 u2 : List Nat) :
    calculateUserSimilarity ⟨older1 ++ [e1], i1, u1⟩ ⟨older2 ++ [e2], i2, u2⟩
      = match similaritySum e1.prefs e2.prefs with
        | .error e => .error e
        | .ok similarity => .ok (JsNum.div similarity (.fin 4)) := by
  unfold calculateUserSimilarity
  simp only [List.getLast?_concat]

theorem intensity_close_eq (a b : Preferences) (x1 x2 : JsNum)
    (h1 : intensityNum a.intensity = .ok x1) (h2 : intensityNum b.intensity = .ok x2) :
    JsNum.le (JsNum.abs (JsNum.sub x1 x2)) (.fin 20) = intensityClose a b := by
  unfold intensityClose
  cases ha : a.intensity <;> cases hb : b.intensity <;> rw [ha] at h1 <;> rw [hb] at h2 <;>
    cases h1 <;> cases h2 <;> rfl

theorem commonNoteCount_nil_right (a b : Preferences) (h : b.favoriteNotes.list = []) :
    commonNoteCount a b = 0 := by
  unfold commonNoteCount
  rw [h]
  simp

theorem commonNoteCount_nil_left (a b : Preferences) (h : a.favoriteNotes.list = []) :
    commonNoteCount a b = 0 := by
  unfold commonNoteCount
  rw [h]
  rfl

theorem typed_parts (p : Preferences) (h : p.typed = true) :
    p.intensity ≠ .unconvertible ∧ p.favoriteNotes ≠ .nonArray := by
  unfold Preferences.typed at h
  rw [Bool.and_eq_true] at h
  exact ⟨of_decide_eq_true h.1, of_decide_eq_true h.2⟩

/-- On typed queries, outside the two defects of the note factor (repeated notes in the
first list, two empty lists), the code computes the formula of the specification. -/
theorem similaritySum_formula (a b : Preferences)
    (ha : a.typed = true) (hb : b.typed = true)
    (hnodup : a.favoriteNotes.list.Nodup)
    (hnotes : ∀ n1 n2, a.favoriteNotes = .arr n1 → b.favoriteNotes = .arr n2 →
      n1 ≠ [] ∨ n2 ≠ []) :
    ∃ sum, similaritySum a b = .ok sum ∧
      JsNum.div sum (.fin 4) = .fin (similarityFormula a b) := by
  have hbase : ∀ c : ℚ,
      (0 + (if a.season.strictEq b.season = true then (2 / 10 : ℚ) else 0)
          + (if a.occasion.strictEq b.occasion = true then (2 / 10 : ℚ) else 0)
          + (if intensityClose a b = true then (3 / 10 : ℚ) else 0) + c) / 4
        = ((2 / 10) * (if a.season = b.season then 1 else 0)
          + (2 / 10) * (if a.occasion = b.occasion then 1 else 0)
          + (3 / 10) * (if intensityClose a b = true then 1 else 0) + c) / 4 := by
    intro c
    simp only [JsVal.strictEq, decide_eq_true_eq]
    split_ifs <;> ring
  obtain ⟨ha1, ha2⟩ := typed_parts a ha
  obtain ⟨hb1, hb2⟩ := typed_parts b hb
  obtain ⟨x1, hx1⟩ := intensityNum_total a.intensity ha1
  obtain ⟨x2, hx2⟩ := intensityNum_total b.intensity hb1
  have hclose := intensity_close_eq a b x1 x2 hx1 hx2
  have hnone : (a.favoriteNotes = .absent ∨ b.favoriteNotes = .absent) →
      ∃ sum, similaritySum a b = .ok sum ∧
        JsNum.div sum (.fin 4) = .fin (similarityFormula a b) := by
    intro hab
    have hc : commonNoteCount a b = 0 := by
      rcases hab with h | h
      · exact commonNoteCount_nil_left a b (by rw [h]; rfl)
      · exact commonNoteCount_nil_right a b (by rw [h]; rfl)
    refine ⟨.fin (0 + (if a.season.strictEq b.season = true then (2 / 10 : ℚ) else 0)
          + (if a.occasion.strictEq b.occasion = true then (2 / 10 : ℚ) else 0)
          + (if intensityClose a b = true then (3 / 10 : ℚ) else 0)), ?_, ?_⟩
    · unfold similaritySum
      simp only [hx1, hx2, hclose]
      rcases hab with h | h
      · rw [h]
      · rw [h]
        cases hA : a.favoriteNotes with
        | absent => rfl
        | arr n1 => rfl
        | nonArray => exact absurd hA ha2
    · unfold similarityFormula
      simp only [JsNum.div, hc, Nat.cast_zero, mul_zero, zero_div, add_zero]
      rw [if_neg (by norm_num)]
      have := hbase 0
      simp only [add_zero] at this
      rw [this]
  cases hA : a.favoriteNotes with
  | absent => exact hnone (Or.inl hA)
  | nonArray => exact absurd hA ha2
  | arr n1 =>
    cases hB : b.favoriteNotes with
    | absent => exact hnone (Or.inr hB)
    | nonArray => exact absurd hB hb2
    | arr n2 =>
      have hmax : ((Max.max n1.length n2.length : Nat) : ℚ) ≠ 0 := by
        have hne := hnotes n1 n2 hA hB
        have : Max.max n1.length n2.length ≠ 0 := by
          rcases hne with h | h
          · have := List.length_pos.mpr h
            have := le_max_left n1.length n2.length
            omega
          · have := List.length_pos.mpr h
            have := le_max_right n1.length n2.length
            omega
        exact_mod_cast this
      have hcount : commonNoteCount a b = (commonNotes n1 n2).length := by
        have hn : n1.Nodup := by
          rw [hA] at hnodup
          exact hnodup
        unfold commonNoteCount commonNotes
        rw [hA, hB]
        simp only [JsNotes.list]
        rw [List.dedup_eq_self.mpr hn]
      refine ⟨_, by unfold similaritySum; simp only [hx1, hx2, hclose, hA, hB]; rfl, ?_⟩
      unfold similarityFormula
      simp only [JsNum.div, JsNum.mul, JsNum.add, hmax, if_false, hA, hB, JsNotes.list, hcount]
      rw [if_neg (by norm_num)]
      have := hbase ((commonNotes n1 n2).length / ((Max.max n1.length n2.length : Nat) : ℚ)
        * (3 / 10))
      rw [this]
      congr 1
      ring

/-- C20 (the code leaves the formula): when the latest queries of both profiles have an
empty favourite-note list, the formula of the specification gives
`(0.2 + 0.2 + 0.3 + 0) / 4 = 0.175` (no note in common), while the code divides `0` by
`Math.max(0, 0)` and returns `NaN`. -/
theorem calculateUserSimilarity_formula_fails :
    calculateUserSimilarity (profileOf noFavorites) (profileOf noFavorites) = .ok .nan ∧
    similarityFormula noFavorites noFavorites = 7 / 40 ∧
    calculateUserSimilarity (profileOf noFavorites) (profileOf noFavorites)
      ≠ .ok (.fin (similarityFormula noFavorites noFavorites)) := by
  decide!

/-! ## Typed stores -/

/-- On typed queries the similarity is computed without an exception. -/
theorem similaritySum_total (a b : Preferences) (ha : a.typed = true) (hb : b.typed = true) :
    ∃ v, similaritySum a b = .ok v := by
  obtain ⟨ha1, ha2⟩ := typed_parts a ha
  obtain ⟨hb1, hb2⟩ := typed_parts b hb
  obtain ⟨x1, hx1⟩ := intensityNum_total a.intensity ha1
  obtain ⟨x2, hx2⟩ := intensityNum_total b.intensity hb1
  unfold similaritySum
  simp only [hx1, hx2]
  cases hA : a.favoriteNotes with
  | absent => exact ⟨_, rfl⟩
  | nonArray => exact absurd hA ha2
  | arr n1 =>
    cases hB : b.favoriteNotes with
    | absent => exact ⟨_, rfl⟩
    | nonArray => exact absurd hB hb2
    | arr n2 => exact ⟨_, rfl⟩

theorem calculateUserSimilarity_total (profile1 profile2 : UserProfile)
    (h1 : profile1.latestTyped = true) (h2 : profile2.latestTyped = true) :
    ∃ v, calculateUserSimilarity profile1 profile2 = .ok v := by
  unfold UserProfile.latestTyped at h1 h2
  unfold calculateUserSimilarity
  cases hl1 : profile1.preferences.getLast? with
  | none => exact ⟨_, rfl⟩
  | some pref1 =>
    cases hl2 : profile2.preferences.getLast? with
    | none => exact ⟨_, rfl⟩
    | some pref2 =>
      rw [hl1] at h1
      rw [hl2] at h2
      obtain ⟨v, hv⟩ := similaritySum_total pref1.prefs pref2.prefs h1 h2
      simp only [hv]
      exact ⟨_, rfl⟩

/-- With a typed latest query of the user and of every other user, `findSimilarUsers`
returns. -/
theorem findSimilarUsers_returns (profiles : ProfileStore) (userId : UserId)
    (huser : ∀ userProfile, profiles.get userId = some userProfile →
      userProfile.latestTyped = true)
    (hothers : ∀ entry ∈ profiles, entry.1 ≠ userId → entry.2.latestTyped = true) :
    ∃ su, findSimilarUsers profiles userId = .ok su := by
  unfold findSimilarUsers
  cases hget : profiles.get userId with
  | none => exact ⟨_, rfl⟩
  | some userProfile =>
    obtain ⟨out, hout⟩ := collectSimilarUsers_total userId userProfile profiles
      (fun entry he hne => calculateUserSimilarity_total userProfile entry.2
        (huser userProfile hget) (hothers entry he hne))
    simp only [hout]
    exact ⟨_, rfl⟩

theorem findSimilarUsers_total (profiles : ProfileStore) (userId : UserId)
    (h : storeTyped profiles = true) : ∃ su, findSimilarUsers profiles userId = .ok su := by
  unfold storeTyped at h
  rw [List.all_eq_true] at h
  exact findSimilarUsers_returns profiles userId
    (fun userProfile hget => h (userId, userProfile) (get_mem profiles userId userProfile hget))
    (fun entry he _ => h entry he)

/-! ## Collaborative boost, entry by entry -/

theorem boostFrom_get? (su : List SimilarUser) (rnd : Nat → ℚ) :
    ∀ (recs : List ScoredItem) (k i : Nat),
      (boostFrom su rnd k recs).get? i =
        (recs.get? i).map (fun r =>
          (⟨r.fragrance, JsNum.min (.fin 100) (JsNum.add r.score (.fin (rnd (k + i) * 10))),
            r.matchingFactors, rnd (k + i) * 10⟩ : BoostedItem))
  | [], _, _ => rfl
  | r :: rest, k, 0 => by
    simp only [boostFrom, List.get?_cons_zero, Option.map_some', Nat.add_zero,
      calculateCollaborativeBoost]
  | r :: rest, k, i + 1 => by
    simp only [boostFrom, List.get?_cons_succ]
    rw [boostFrom_get? su rnd rest (k + 1) i]
    have : k + 1 + i = k + (i + 1) := by omega
    rw [this]

/-- C21: for every candidate list and every non-negative draw of the boosts, every list
`applyCollaborativeFiltering` returns has the same length as the candidate list, with the
same items in the same order; the entry at each position has a boost `b >= 0` and the score
`min(100, old score + b)`, which for a numeric old score is at most 100 and, when the old
score is at most 100, not below it. It returns such a list on every store in which the
latest query of every user is typed. -/
theorem applyCollaborativeFiltering_spec (profiles : ProfileStore) (rnd : Nat → ℚ)
    (recommendations : List ScoredItem) (userId : UserId) (hrnd : ∀ k, 0 ≤ rnd k) :
    (∀ boosted, applyCollaborativeFiltering profiles rnd recommendations userId = .ok boosted →
      boosted.length = recommendations.length ∧
      boosted.map (fun b => b.fragrance.id) = recommendations.map (fun r => r.fragrance.id) ∧
      ∀ (i : Nat) (old : ScoredItem), recommendations.get? i = some old →
        ∃ new : BoostedItem,
          boosted.get? i = some new ∧
          new.fragrance = old.fragrance ∧
          0 ≤ new.collaborativeBoost ∧
          new.score
            = JsNum.min (.fin 100) (JsNum.add old.score (.fin new.collaborativeBoost)) ∧
          ∀ v, old.score = .fin v →
            ∃ w, new.score = .fin w ∧ w = Min.min 100 (v + new.collaborativeBoost) ∧
              w ≤ 100 ∧ (v ≤ 100 → v ≤ w)) ∧
    (storeTyped profiles = true →
      ∃ boosted, applyCollaborativeFiltering profiles rnd recommendations userId
        = .ok boosted) := by
  constructor
  · intro boosted hboosted
    obtain ⟨su, _, rfl⟩ :=
      applyCollaborativeFiltering_ok profiles rnd recommendations userId boosted hboosted
    refine ⟨boostFrom_length _ rnd recommendations 0, ?_, ?_⟩
    · have h := boostFrom_map_fragrance su rnd recommendations 0
      have h2 := congrArg (List.map (fun f : Fragrance => f.id)) h
      simpa only [List.map_map] using h2
    · intro i old hold
      have hb : 0 ≤ rnd (0 + i) * 10 := mul_nonneg (hrnd _) (by norm_num)
      refine ⟨⟨old.fragrance,
        JsNum.min (.fin 100) (JsNum.add old.score (.fin (rnd (0 + i) * 10))),
        old.matchingFactors, rnd (0 + i) * 10⟩, ?_, rfl, hb, rfl, ?_⟩
      · rw [boostFrom_get?, hold]
        rfl
      · intro v hv
        refine ⟨Min.min 100 (v + rnd (0 + i) * 10), ?_, rfl, min_le_left _ _, ?_⟩
        · simp only [hv, JsNum.add, JsNum.min]
        · intro hv100
          exact le_min hv100 (by linarith)
  · intro htyped
    obtain ⟨su, hsu⟩ := findSimilarUsers_total profiles userId htyped
    unfold applyCollaborativeFiltering
    rw [hsu]
    exact ⟨_, rfl⟩

/-- The boost properties on the two records of the sample query with draws of 0.5, on the
empty store, where the boosting returns. -/
theorem applyCollaborativeFiltering_spec_witness :
    (∀ boosted, applyCollaborativeFiltering [] (fun _ => 1 / 2) sampleScored 1 = .ok boosted →
      boosted.length = sampleScored.length ∧
      boosted.map (fun b => b.fragrance.id) = sampleScored.map (fun r => r.fragrance.id) ∧
      ∀ (i : Nat) (old : ScoredItem), sampleScored.get? i = some old →
        ∃ new : BoostedItem,
          boosted.get? i = some new ∧
          new.fragrance = old.fragrance ∧
          0 ≤ new.collaborativeBoost ∧
          new.score
            = JsNum.min (.fin 100) (JsNum.add old.score (.fin new.collaborativeBoost)) ∧
          ∀ v, old.score = .fin v →
            ∃ w, new.score = .fin w ∧ w = Min.min 100 (v + new.collaborativeBoost) ∧
              w ≤ 100 ∧ (v ≤ 100 → v ≤ w)) ∧
    (∃ boosted, applyCollaborativeFiltering [] (fun _ => 1 / 2) sampleScored 1
      = .ok boosted) :=
  (fun h => ⟨h.1, h.2 rfl⟩)
    (applyCollaborativeFiltering_spec [] (fun _ => 1 / 2) sampleScored 1
      (fun _ => by norm_num))

/-! ## Frame of recordInteraction -/

theorem get_set_other (m : ProfileStore) (k other : UserId) (v : UserProfile)
    (h : other ≠ k) : (m.set k v).get other = m.get other := by
  induction m with
  | nil =>
    simp only [ProfileStore.set, ProfileStore.get]
    rw [if_neg (fun hk => h hk.symm)]
  | cons e rest ih =>
    obtain ⟨k1, v1⟩ := e
    by_cases hk : k1 = k
    · subst hk
      simp only [ProfileStore.set, ProfileStore.get, if_true]
      rw [if_neg (fun hk => h hk.symm), if_neg (fun hk => h hk.symm)]
    · simp only [ProfileStore.set, hk, if_false, ProfileStore.get, ih]

theorem recordInteraction_profiles (s : Service) (now : Nat) (userId : UserId)
    (fragranceId interactionType rating : JsVal) :
    (recordInteraction s now userId fragranceId interactionType rating).userProfiles
        = s.userProfiles.set userId
          ⟨((s.userProfiles.get userId).getD ⟨[], [], []⟩).preferences,
           ((s.userProfiles.get userId).getD ⟨[], [], []⟩).interactions ++
             [⟨fragranceId, interactionType,
               if rating = .undefined then JsVal.null else rating, now⟩],
           ((s.userProfiles.get userId).getD ⟨[], [], []⟩).purchases⟩ ∧
    (recordInteraction s now userId fragranceId interactionType rating).model = s.model ∧
    (recordInteraction s now userId fragranceId interactionType rating).fragranceDatabase
        = s.fragranceDatabase := by
  unfold recordInteraction updateModelWeights
  dsimp only
  split <;> split <;> exact ⟨rfl, rfl, rfl⟩

/-- C22: `recordInteraction(userId, itemId, kind, rating)` leaves the user with a profile
whose interaction log is the old log (empty for an unknown user) followed by exactly one
new entry `{ itemId, kind, rating }` with its timestamp (an omitted rating is stored as
`null`); the user's preference history and purchases, every other user's profile, the
model and the catalog are unchanged. -/
theorem recordInteraction_frame (s : Service) (now : Nat) (userId : UserId)
    (fragranceId interactionType rating : JsVal) :
    (∃ profile,
      (recordInteraction s now userId fragranceId interactionType rating).userProfiles.get userId
        = some profile ∧
      profile.interactions =
        ((s.userProfiles.get userId).getD ⟨[], [], []⟩).interactions ++
          [⟨fragranceId, interactionType,
            if rating = .undefined then JsVal.null else rating, now⟩] ∧
      profile.preferences = ((s.userProfiles.get userId).getD ⟨[], [], []⟩).preferences ∧
      profile.purchases = ((s.userProfiles.get userId).getD ⟨[], [], []⟩).purchases) ∧
    (∀ other, other ≠ userId →
      (recordInteraction s now userId fragranceId interactionType rating).userProfiles.get other
        = s.userProfiles.get other) ∧
    (recordInteraction s now userId fragranceId interactionType rating).model = s.model ∧
    (recordInteraction s now userId fragranceId interactionType rating).fragranceDatabase
      = s.fragranceDatabase := by
  obtain ⟨hprofiles, hmodel, hcatalog⟩ :=
    recordInteraction_profiles s now userId fragranceId interactionType rating
  refine ⟨⟨⟨((s.userProfiles.get userId).getD ⟨[], [], []⟩).preferences,
      ((s.userProfiles.get userId).getD ⟨[], [], []⟩).interactions ++
        [⟨fragranceId, interactionType,
          if rating = .undefined then JsVal.null else rating, now⟩],
      ((s.userProfiles.get userId).getD ⟨[], [], []⟩).purchases⟩, ?_, rfl, rfl, rfl⟩,
    ?_, hmodel, hcatalog⟩
  · rw [hprofiles]
    exact get_set_self _ _ _
  · intro other hother
    rw [hprofiles]
    exact get_set_other _ _ _ _ hother

/-! ## Price ranges -/

theorem priceBounds_under100 : priceBounds (.str "Under $100") = .ok (0, 100) := by
  decide!

theorem priceBounds_above300 : priceBounds (.str "Above $300") = .ok (300, 1000) := by
  decide!

/-- The label "Under $100" is not scored on the half-open interval `[0, 100)`: a price of
exactly 100 scores 10. -/
theorem under100_not_half_open :
    ¬ ∀ price : ℚ, calculatePriceScore price (.str "Under $100")
        = .ok (if 0 ≤ price ∧ price < 100 then 10 else 0) := by
  intro h
  have h100 := h 100
  revert h100
  decide!

/-- C23 (amended): for the label "Under $100" the bounds are the closed interval
`[0, 100]`: for every price, `calculatePriceScore(price, "Under $100")` is 10 if
`0 <= price <= 100` and 0 otherwise; in particular a price of exactly 100 scores 10. -/
theorem calculatePriceScore_under100 (price : ℚ) :
    calculatePriceScore price (.str "Under $100")
      = .ok (if 0 ≤ price ∧ price ≤ 100 then 10 else 0) ∧
    calculatePriceScore 100 (.str "Under $100") = .ok 10 := by
  constructor
  · simp only [calculatePriceScore, priceBounds_under100, ge_iff_le]
  · simp only [calculatePriceScore, priceBounds_under100, ge_iff_le]
    norm_num

/-- The label "Above $300" is not scored without an upper bound: a price of 1500
scores 0. -/
theorem above300_not_unbounded :
    ¬ ∀ price : ℚ, calculatePriceScore price (.str "Above $300")
        = .ok (if price ≥ 300 then 10 else 0) := by
  intro h
  have h1500 := h 1500
  revert h1500
  decide!

/-- C24 (amended): for the label "Above $300" the bounds are the closed interval
`[300, 1000]`: for every price, `calculatePriceScore(price, "Above $300")` is 10 if
`300 <= price <= 1000` and 0 otherwise; in particular a price of 1500 scores 0. -/
theorem calculatePriceScore_above300 (price : ℚ) :
    calculatePriceScore price (.str "Above $300")
      = .ok (if 300 ≤ price ∧ price ≤ 1000 then 10 else 0) ∧
    calculatePriceScore 1500 (.str "Above $300") = .ok 0 := by
  constructor
  · simp only [calculatePriceScore, priceBounds_above300, ge_iff_le]
  · simp only [calculatePriceScore, priceBounds_above300, ge_iff_le]
    norm_num

/-! ## Occasion, note and season factors -/

/-- C25 (the code replaces only the first space): for the occasion `"Black Tie Event"` the
normalisation of the specification gives `"black_tie_event"`, an occasion of the item, but
`replace(" ", "_")` gives `"black_tie event"`, so the occasion factor is 0 instead of 20. -/
theorem occasion_second_blank_kept :
    occasionNormalized "Black Tie Event" = "black_tie_event" ∧
    occasionNormalized "Black Tie Event" ∈ blackTieItem.occasion ∧
    strReplaceBlank (strLower "Black Tie Event") = "black_tie event" ∧
    occasionFactor blackTieQuery blackTieItem = .ok (0, []) := by
  decide!

/-- C26 (the note factor exceeds its weight): for the single favourite note `"wood"` the
item notes `"sandalwood"` and `"woody"` both match, so the factor added to the score of
"Sugi Classic" is `(2 / 1) * 30 = 60`, above the weight 30. -/
theorem noteFactor_exceeds_weight :
    noteFactor woodQuery sugiClassic
      = .ok (60, ["Contains your favorite sandalwood, woody notes"]) ∧
    ¬ ((60 : ℚ) ≤ 30) := by
  decide!

/-- With a catalog entry stored as `"Spring"`, the query season `"spring"` equals it
ignoring letter case, yet the season factor is 0. -/
theorem season_catalog_case_matters :
    memIgnoringCase "spring" capitalSeasonItem.season ∧
    seasonFactor springQuery capitalSeasonItem = .ok (0, []) := by
  refine ⟨⟨"Spring", by decide, by decide!⟩, by decide!⟩

theorem truthy_str (s : String) (h : s ≠ "") : (JsVal.str s).truthy = true := by
  simp [JsVal.truthy, h]

/-- C27 (amended): for every item and every non-empty query season string, the season
factor is 25 if the lower-cased query season is an element of the item's season set as
stored, and 0 otherwise: the letter case of the query is ignored, the catalog entries are
compared exactly. When the catalog entries are lower case (as in the built-in catalog) this
is membership ignoring letter case. -/
theorem seasonFactor_spec (p : Preferences) (fragrance : Fragrance) (s : String)
    (hs : p.season = .str s) (hne : s ≠ "") :
    seasonFactor p fragrance
      = .ok (if strLower s ∈ fragrance.season then (25, ["Perfect for " ++ s]) else (0, [])) ∧
    ((∀ e ∈ fragrance.season, strLower e = e) →
      (strLower s ∈ fragrance.season ↔ memIgnoringCase s fragrance.season)) := by
  constructor
  · unfold seasonFactor
    rw [hs, if_pos (truthy_str s hne)]
    simp only [JsVal.toLowerCase, JsVal.interpolate]
    have : (⟨s.data.map Char.toLower⟩ : String) = strLower s := rfl
    rw [this]
    split <;> rfl
  · intro hlower
    constructor
    · intro hmem
      exact ⟨strLower s, hmem, hlower _ hmem⟩
    · rintro ⟨e, he, hes⟩
      rw [← hes, hlower e he]
      exact he

/-- The season `"Spring"` of the client form against "Sugi Classic". -/
theorem seasonFactor_spec_witness :
    seasonFactor ⟨.str "Spring", .undefined, .num 50, .absent, .undefined⟩ sugiClassic
      = .ok (if strLower "Spring" ∈ sugiClassic.season then (25, ["Perfect for " ++ "Spring"])
          else (0, [])) ∧
    ((∀ e ∈ sugiClassic.season, strLower e = e) →
      (strLower "Spring" ∈ sugiClassic.season ↔ memIgnoringCase "Spring" sugiClassic.season)) :=
  seasonFactor_spec ⟨.str "Spring", .undefined, .num 50, .absent, .undefined⟩ sugiClassic "Spring"
    rfl (by decide)

/-! ## Model input encoding -/

/-- C28 (intensity 0 is replaced by 50): for the query with intensity 0 the first feature
built by `preprocessPreferences` is 50, not 0, because `preferences.intensity || 50` takes
the falsy value 0 for absent. -/
theorem preprocessPreferences_zero_intensity :
    zeroIntensityQuery.intensity = .num 0 ∧
    preprocessPreferences (some zeroIntensityQuery) = .ok [50, 1, 0, 0, 0, 1, 0, 0] := by
  decide!

/-- For every query whose intensity is absent or a number the feature list has length 8,
and its first element is the intensity whenever that is a number other than 0. -/
theorem preprocessPreferences_intensity (p : Preferences)
    (hi : p.intensity ≠ .unconvertible) :
    ∃ features, preprocessPreferences (some p) = .ok features ∧ features.length = 8 ∧
      ∀ q, p.intensity = .num q → q ≠ 0 → features.head? = some q := by
  cases hp : p.intensity with
  | unconvertible => exact absurd hp hi
  | absent =>
    simp only [preprocessPreferences, hp, intensityFeature]
    refine ⟨_, rfl, rfl, ?_⟩
    intro q hq
    cases hq
  | num x =>
    simp only [preprocessPreferences, hp, intensityFeature]
    refine ⟨_, rfl, rfl, ?_⟩
    intro q hq hne
    cases hq
    simp only [List.head?_cons, Option.some.injEq]
    rw [if_pos hne]

/-! ## The similarity threshold is never reached -/

theorem commonNotes_length_le (notes1 notes2 : List JsVal) :
    (commonNotes notes1 notes2).length ≤ Max.max notes1.length notes2.length :=
  le_trans (List.length_filter_le _ _) (le_max_left _ _)

/-- The sum of the four similarity factors, when it is computed, is `NaN` or a number
between 0 and 1. -/
theorem similaritySum_bound (a b : Preferences) (v : JsNum) (h : similaritySum a b = .ok v) :
    v = .nan ∨ ∃ q, v = .fin q ∧ 0 ≤ q ∧ q ≤ 1 := by
  have hbase : ∀ (c1 c2 c3 : Prop) [Decidable c1] [Decidable c2] [Decidable c3],
      (0 : ℚ) ≤ 0 + (if c1 then 2 / 10 else 0) + (if c2 then 2 / 10 else 0)
          + (if c3 then 3 / 10 else 0) ∧
      0 + (if c1 then (2 / 10 : ℚ) else 0) + (if c2 then 2 / 10 else 0)
          + (if c3 then 3 / 10 else 0) ≤ 7 / 10 := by
    intro c1 c2 c3 _ _ _
    split_ifs <;> norm_num
  unfold similaritySum at h
  dsimp only at h
  cases hx1 : intensityNum a.intensity with
  | error e =>
    cases hx2 : intensityNum b.intensity with
    | error e2 =>
      rw [hx1, hx2] at h
      cases h
    | ok x2 =>
      rw [hx1, hx2] at h
      cases h
  | ok x1 =>
    cases hx2 : intensityNum b.intensity with
    | error e =>
      rw [hx1, hx2] at h
      cases h
    | ok x2 =>
      rw [hx1, hx2] at h
      dsimp only at h
      obtain ⟨hb0, hb1⟩ := hbase (a.season.strictEq b.season = true)
        (a.occasion.strictEq b.occasion = true)
        (JsNum.le (JsNum.abs (JsNum.sub x1 x2)) (.fin 20) = true)
      split at h
      · rename_i notes1 notes2 _ _
        simp only [Except.ok.injEq] at h
        subst h
        by_cases hm : ((Max.max notes1.length notes2.length : Nat) : ℚ) = 0
        · left
          simp only [JsNum.div, hm, if_true, JsNum.mul, JsNum.add]
        · right
          have hpos : (0 : ℚ) < ((Max.max notes1.length notes2.length : Nat) : ℚ) :=
            lt_of_le_of_ne (Nat.cast_nonneg _) (Ne.symm hm)
          have hle : ((commonNotes notes1 notes2).length : ℚ)
              ≤ ((Max.max notes1.length notes2.length : Nat) : ℚ) := by
            exact_mod_cast commonNotes_length_le notes1 notes2
          have hratio1 : ((commonNotes notes1 notes2).length : ℚ)
              / ((Max.max notes1.length notes2.length : Nat) : ℚ) ≤ 1 :=
            (div_le_one hpos).mpr hle
          have hratio0 : (0 : ℚ) ≤ ((commonNotes notes1 notes2).length : ℚ)
              / ((Max.max notes1.length notes2.length : Nat) : ℚ) :=
            div_nonneg (Nat.cast_nonneg _) (le_of_lt hpos)
          simp only [JsNum.div, hm, if_false, JsNum.mul, JsNum.add]
          refine ⟨_, rfl, ?_, ?_⟩
          · nlinarith
          · nlinarith
      · split at h
        · simp only [Except.ok.injEq] at h
          subst h
          left
          rfl
        · cases h
      · cases h
      · cases h
      · simp only [Except.ok.injEq] at h
        subst h
        right
        exact ⟨_, rfl, hb0, by linarith⟩

/-- The similarity, when it is computed, is `NaN` or lies in `[0, 0.25]`. -/
theorem calculateUserSimilarity_bound (profile1 profile2 : UserProfile) (v : JsNum)
    (h : calculateUserSimilarity profile1 profile2 = .ok v) :
    v = .nan ∨ v.within 0 (1 / 4) := by
  unfold calculateUserSimilarity at h
  split at h
  · rename_i pref1 pref2 _ _
    split at h
    · cases h
    · rename_i sum hsum
      simp only [Except.ok.injEq] at h
      subst h
      rcases similaritySum_bound pref1.prefs pref2.prefs sum hsum with h | ⟨q, hq, h0, h1⟩
      · left
        rw [h]
        rfl
      · right
        rw [hq]
        simp only [JsNum.div]
        rw [if_neg (by norm_num)]
        simp only [JsNum.within]
        constructor
        · positivity
        · linarith
  · simp only [Except.ok.injEq] at h
    subst h
    right
    simp only [JsNum.within]
    norm_num

theorem calculateUserSimilarity_below_threshold (profile1 profile2 : UserProfile) (v : JsNum)
    (h : calculateUserSimilarity profile1 profile2 = .ok v) :
    v.gt (.fin (6 / 10)) = false := by
  rcases calculateUserSimilarity_bound profile1 profile2 v h with h | h
  · rw [h]
    rfl
  · cases v with
    | nan => rfl
    | fin q =>
      simp only [JsNum.within] at h
      simp only [JsNum.gt, decide_eq_false_iff_not, not_lt]
      linarith [h.2]

theorem similarityOf_below_threshold (profile1 profile2 : UserProfile) :
    (similarityOf profile1 profile2).gt (.fin (6 / 10)) = false := by
  unfold similarityOf
  cases hc : calculateUserSimilarity profile1 profile2 with
  | error e => rfl
  | ok v => exact calculateUserSimilarity_below_threshold profile1 profile2 v hc

theorem similarCandidates_nil (profiles : ProfileStore) (userId : UserId)
    (userProfile : UserProfile) : similarCandidates profiles userId userProfile = [] := by
  unfold similarCandidates
  rw [List.map_eq_nil_iff, List.filter_eq_nil_iff]
  intro e _
  simp [similarityOf_below_threshold]

/-- Whatever `findSimilarUsers` returns is the empty list. -/
theorem findSimilarUsers_nil (profiles : ProfileStore) (userId : UserId)
    (out : List SimilarUser) (h : findSimilarUsers profiles userId = .ok out) : out = [] := by
  unfold findSimilarUsers at h
  cases hget : profiles.get userId with
  | none =>
    rw [hget] at h
    simp only [Except.ok.injEq] at h
    exact h.symm
  | some userProfile =>
    rw [hget] at h
    dsimp only at h
    cases hc : collectSimilarUsers userId userProfile profiles with
    | error err =>
      rw [hc] at h
      cases h
    | ok similarUsers =>
      rw [hc] at h
      simp only [Except.ok.injEq] at h
      obtain ⟨h1, _⟩ := collectSimilarUsers_ok userId userProfile profiles similarUsers hc
      rw [← h, h1, similarCandidates_nil]
      rfl

/-- C29: for every profile store and every user id, every list `findSimilarUsers` returns
is the empty list, and it returns (the empty list) on every store in which the latest query
of every user is typed: the similarity `calculateUserSimilarity` computes is `NaN` or at
most `(0.2 + 0.2 + 0.3 + 0.3) / 4 = 0.25`, because the common-note count is at most
`max(|A|, |B|)`, so no pair of profiles passes the strict threshold `similarity > 0.6`. -/
theorem findSimilarUsers_empty (profiles : ProfileStore) (userId : UserId) :
    (∀ out, findSimilarUsers profiles userId = .ok out → out = []) ∧
    (storeTyped profiles = true → findSimilarUsers profiles userId = .ok []) ∧
    (∀ notes1 notes2 : List JsVal,
      (commonNotes notes1 notes2).length ≤ Max.max notes1.length notes2.length) ∧
    ∀ (profile1 profile2 : UserProfile) (v : JsNum),
      calculateUserSimilarity profile1 profile2 = .ok v →
      (v = .nan ∨ v.within 0 (1 / 4)) ∧ v.gt (.fin (6 / 10)) = false := by
  refine ⟨findSimilarUsers_nil profiles userId, ?_, commonNotes_length_le, fun p1 p2 v hv =>
    ⟨calculateUserSimilarity_bound p1 p2 v hv,
      calculateUserSimilarity_below_threshold p1 p2 v hv⟩⟩
  intro htyped
  obtain ⟨su, hsu⟩ := findSimilarUsers_total profiles userId htyped
  rw [hsu, findSimilarUsers_nil profiles userId su hsu]

/-! ## Requests on a store with typed entries -/

/-- After an update the latest entry of the user's history is the query just sent. -/
theorem updateUserProfile_latest (profiles : ProfileStore) (now : Nat) (userId : UserId)
    (q : Option Preferences) :
    ∃ profile, (updateUserProfile profiles now userId q).get userId = some profile ∧
      profile.preferences.getLast? = some (storedEntry (now, q)) := by
  obtain ⟨profile, hget, hprefs⟩ := updateUserProfile_get profiles now userId q
  refine ⟨profile, hget, ?_⟩
  rw [hprefs, List.length_append, List.length_singleton,
    List.drop_append_of_le_length (by omega), List.getLast?_concat]

/-- An update leaves the entries of the other users as they were. -/
theorem updateUserProfile_others (profiles : ProfileStore) (now : Nat) (userId : UserId)
    (q : Option Preferences) (entry : UserId × UserProfile)
    (he : entry ∈ updateUserProfile profiles now userId q) (hne : entry.1 ≠ userId) :
    entry ∈ profiles := by
  unfold updateUserProfile at he
  rcases mem_set _ _ _ _ he with h | h
  · exact h
  · rw [h] at hne
    exact absurd rfl hne

theorem othersTyped_mem (profiles : ProfileStore) (userId : UserId)
    (h : othersTyped profiles userId = true) (entry : UserId × UserProfile)
    (he : entry ∈ profiles) (hne : entry.1 ≠ userId) : entry.2.latestTyped = true := by
  unfold othersTyped at h
  rw [List.all_eq_true] at h
  have h1 := h entry he
  rw [Bool.or_eq_true] at h1
  rcases h1 with h1 | h1
  · exact absurd (of_decide_eq_true h1) hne
  · exact h1

/-- After the profile update for a typed query, on a store in which the latest query of
every other user is typed, `findSimilarUsers` returns. -/
theorem findSimilarUsers_after_update (profiles : ProfileStore) (now : Nat) (userId : UserId)
    (p : Preferences) (hp : p.typed = true) (hstore : othersTyped profiles userId = true) :
    ∃ su, findSimilarUsers (updateUserProfile profiles now userId (some p)) userId = .ok su := by
  obtain ⟨profile, hget, hlast⟩ := updateUserProfile_latest profiles now userId (some p)
  apply findSimilarUsers_returns
  · intro userProfile hget2
    rw [hget] at hget2
    cases hget2
    unfold UserProfile.latestTyped
    rw [hlast]
    exact hp
  · intro entry he hne
    exact othersTyped_mem profiles userId hstore entry
      (updateUserProfile_others profiles now userId (some p) entry he hne) hne

/-- In rule mode a well-formed query runs the whole pipeline without an exception when the
latest stored query of every other user is typed. -/
theorem pipeline_total (s : Service) (now : Nat) (rnd : Nat → ℚ) (p : Preferences)
    (userId : UserId) (lim : Int) (hmodel : s.model = none) (h : p.wellFormed = true)
    (hstore : othersTyped s.userProfiles userId = true) :
    ∃ l, pipeline (afterProfileUpdate s now userId (some p)) rnd (some p) userId lim
      = .ok l := by
  obtain ⟨scores, hscores⟩ := mapE_total (scoreFragrance (some p)) s.fragranceDatabase
    (fun f _ => scoreFragrance_total p f h)
  have hsc : scoreCandidates (afterProfileUpdate s now userId (some p)) (some p)
      = .ok (scores.filter (fun item => item.score.gt (.fin 30))) := by
    simp only [scoreCandidates, afterProfileUpdate, hmodel, ruleBasedRecommendations, hscores]
  obtain ⟨su, hsu⟩ := findSimilarUsers_after_update s.userProfiles now userId p
    (wellFormed_typed p h) hstore
  have hsu1 : findSimilarUsers (afterProfileUpdate s now userId (some p)).userProfiles userId
      = .ok su := hsu
  obtain ⟨recs, hrecs⟩ := mapE_total (finishItem (some p))
    (boostFrom su rnd 0 (scores.filter (fun item => item.score.gt (.fin 30))))
    (fun b _ => finishItem_total p b h)
  exact ⟨slice0 (jsSort byConfidence recs) (some lim),
    by simp only [pipeline, hsc, applyCollaborativeFiltering, hsu1, hrecs]⟩

/-- In rule mode every item of a list the pipeline returns has a raw rule score above 30. -/
theorem pipeline_scores_above (s : Service) (rnd : Nat → ℚ) (q : Option Preferences)
    (userId : UserId) (lim : Int) (l : List RankedResult) (hmodel : s.model = none)
    (hl : pipeline s rnd q userId lim = .ok l) :
    ∀ r ∈ l, ∃ sc v, scoreFragrance q r.fragrance = .ok sc ∧ sc.score = .fin v ∧ 30 < v := by
  obtain ⟨scored, su, recs, hscored, _, hrecs, rfl⟩ := pipeline_ok s rnd q userId lim l hl
  intro r hr
  have hr1 : r ∈ recs := (mem_jsSort _ _ _).mp ((slice0_sublist _ _).subset hr)
  obtain ⟨b, hb, hfin⟩ := mapE_ok_mem _ _ _ hrecs r hr1
  obtain ⟨hfrag, _⟩ := finishItem_ok _ b r hfin
  obtain ⟨sc, hsc, j, rfl⟩ := boostFrom_mem _ rnd scored 0 b hb
  simp only [scoreCandidates, hmodel] at hscored
  obtain ⟨_, hscore, v, hv, h30, _⟩ := ruleBasedRecommendations_mem _ _ scored hscored sc hsc
  exact ⟨sc, v, by rw [hfrag]; exact hscore, hv, h30⟩

/-- C7 as stated fails. User 2 has sent `{ intensity: 50, favoriteNotes: 5 }`, which is
stored as it came. The well-formed sample query of user 1 then makes the similarity
computation throw, `generateRecommendations` returns the fallback list, and that list holds
"Evening Elegance", whose raw rule score for the sample query is 12. -/
theorem low_score_delivered_by_fallback :
    afterNumberNotes.model = none ∧ sampleQuery.wellFormed = true ∧
    (generateRecommendations afterNumberNotes 1 (fun _ => 1 / 2) (some sampleQuery) 1 none).1
      = .ok (getFallbackRecommendations afterNumberNotes (some 5)).1 ∧
    fallbackItem eveningElegance ∈ (getFallbackRecommendations afterNumberNotes (some 5)).1 ∧
    scoreFragrance (some sampleQuery) eveningElegance
      = .ok ⟨eveningElegance, .fin 12, ["Perfect intensity level"]⟩ ∧
    ¬ ∃ l, (generateRecommendations afterNumberNotes 1 (fun _ => 1 / 2) (some sampleQuery) 1
        none).1 = .ok l ∧
      ∀ r ∈ l, ∃ sc v, scoreFragrance (some sampleQuery) r.fragrance = .ok sc ∧
        sc.score = .fin v ∧ 30 < v := by
  have hgen : (generateRecommendations afterNumberNotes 1 (fun _ => 1 / 2) (some sampleQuery) 1
      none).1 = .ok (getFallbackRecommendations afterNumberNotes (some 5)).1 := by decide!
  have hmem : fallbackItem eveningElegance
      ∈ (getFallbackRecommendations afterNumberNotes (some 5)).1 := by decide!
  have hscore : scoreFragrance (some sampleQuery) eveningElegance
      = .ok ⟨eveningElegance, .fin 12, ["Perfect intensity level"]⟩ := by decide!
  refine ⟨generateRecommendations_model _ _ _ _ _ _, by decide, hgen, hmem, hscore, ?_⟩
  rintro ⟨l, hl, hall⟩
  rw [hgen] at hl
  cases hl
  obtain ⟨sc, v, hsc, hv, h30⟩ := hall _ hmem
  have hfrag : (fallbackItem eveningElegance).fragrance = eveningElegance := rfl
  rw [hfrag, hscore] at hsc
  cases hsc
  cases hv
  norm_num at h30

/-- C7 (amended): with no model loaded, for every well-formed query, every catalog and
every draw of the boosts: every item of a list that `generateRecommendations` returns from
its pipeline has a raw rule score (the result of `scoreFragrance`, computed before boosting)
that is finite and strictly above 30; and when the latest stored query of every other user
is typed, the pipeline runs without an exception, so every item of the returned list has
such a score and a catalog item whose raw score is not above 30 is not in the list. -/
theorem low_scores_never_delivered (s : Service) (now : Nat) (rnd : Nat → ℚ)
    (p : Preferences) (userId : UserId) (limit : Option Int)
    (hmodel : s.model = none) (hwf : p.wellFormed = true) :
    (∀ l0, pipeline (afterProfileUpdate s now userId (some p)) rnd (some p) userId
        (limit.getD 5) = .ok l0 →
      (generateRecommendations s now rnd (some p) userId limit).1 = .ok l0 ∧
      ∀ r ∈ l0, ∃ sc v, scoreFragrance (some p) r.fragrance = .ok sc ∧
        sc.score = .fin v ∧ 30 < v) ∧
    (othersTyped s.userProfiles userId = true →
      ∃ l, (generateRecommendations s now rnd (some p) userId limit).1 = .ok l ∧
        (∀ r ∈ l, ∃ sc v, scoreFragrance (some p) r.fragrance = .ok sc ∧
          sc.score = .fin v ∧ 30 < v) ∧
        (∀ f sc, scoreFragrance (some p) f = .ok sc → sc.score.gt (.fin 30) = false →
          ∀ r ∈ l, r.fragrance ≠ f)) := by
  have hmodel1 : (afterProfileUpdate s now userId (some p)).model = none := hmodel
  have hpipe : ∀ l0, pipeline (afterProfileUpdate s now userId (some p)) rnd (some p) userId
        (limit.getD 5) = .ok l0 →
      (generateRecommendations s now rnd (some p) userId limit).1 = .ok l0 ∧
      ∀ r ∈ l0, ∃ sc v, scoreFragrance (some p) r.fragrance = .ok sc ∧
        sc.score = .fin v ∧ 30 < v := by
    intro l0 hl0
    refine ⟨?_, pipeline_scores_above _ rnd (some p) userId _ l0 hmodel1 hl0⟩
    rcases generateRecommendations_cases s now rnd (some p) userId limit with
      ⟨l, hp, hg⟩ | ⟨e, hp, _⟩
    · rw [hl0] at hp
      cases hp
      rw [hg]
    · rw [hl0] at hp
      cases hp
  refine ⟨hpipe, ?_⟩
  intro hstore
  obtain ⟨l0, hl0⟩ := pipeline_total s now rnd p userId (limit.getD 5) hmodel hwf hstore
  obtain ⟨hg, hmain⟩ := hpipe l0 hl0
  refine ⟨l0, hg, hmain, ?_⟩
  intro f sc hsc hlow r hr hrf
  obtain ⟨sc2, v, hsc2, hv, h30⟩ := hmain r hr
  rw [hrf, hsc] at hsc2
  cases hsc2
  rw [hv] at hlow
  simp [JsNum.gt] at hlow
  linarith

/-- The threshold for the sample query on a store that holds a typed query of another
user. -/
theorem low_scores_never_delivered_witness :
    ∃ l, (generateRecommendations seededService 0 (fun _ => 1 / 2) (some sampleQuery) 1
        none).1 = .ok l ∧
      (∀ r ∈ l, ∃ sc v, scoreFragrance (some sampleQuery) r.fragrance = .ok sc ∧
        sc.score = .fin v ∧ 30 < v) ∧
      (∀ f sc, scoreFragrance (some sampleQuery) f = .ok sc → sc.score.gt (.fin 30) = false →
        ∀ r ∈ l, r.fragrance ≠ f) :=
  (low_scores_never_delivered seededService 0 (fun _ => 1 / 2) sampleQuery 1 none rfl
    (by decide)).2 (by decide)

/-! ## Intensity alone never passes the filter -/

theorem scoreFragrance_intensityOnly (p : Preferences) (f : Fragrance) (x : ℚ)
    (h : intensityOnly p) (hintensity : p.intensity = .num x) :
    scoreFragrance (some p) f
      = .ok ⟨f, .fin (Max.max 0 (15 - |f.intensity - x| / 10)),
          if Max.max 0 (15 - |f.intensity - x| / 10) > 10 then
            ["Perfect intensity level"] else []⟩ := by
  obtain ⟨hseason, hoccasion, hprice, hnotes⟩ := h
  have hs : seasonFactor p f = .ok (0, []) := by simp [seasonFactor, hseason]
  have ho : occasionFactor p f = .ok (0, []) := by simp [occasionFactor, hoccasion]
  have hn : noteFactor p f = .ok (0, []) := by
    rcases hnotes with h | h <;> simp [noteFactor, h]
  have hp : priceFactor p f = .ok (0, []) := by simp [priceFactor, hprice]
  have hle := intensity_points_le f.intensity x
  simp only [scoreFragrance, hs, ho, hn, hp, intensityFactor,
    intensityScore_of_num p f x hintensity, JsNum.add, JsNum.min, JsNum.gt]
  have hmin : Min.min 100 (0 + 0 + 0 + Max.max 0 (15 - |f.intensity - x| / 10) + 0 + 0)
      = Max.max 0 (15 - |f.intensity - x| / 10) := by
    rw [min_eq_right (by linarith)]
    ring
  rw [hmin]
  simp

theorem ruleBasedRecommendations_intensityOnly (catalog : List Fragrance) (p : Preferences)
    (x : ℚ) (h : intensityOnly p) (hintensity : p.intensity = .num x) :
    ruleBasedRecommendations catalog (some p) = .ok [] := by
  obtain ⟨scores, hscores⟩ := mapE_total (scoreFragrance (some p)) catalog
    (fun f _ => ⟨_, scoreFragrance_intensityOnly p f x h hintensity⟩)
  have hfilter : scores.filter (fun item => item.score.gt (.fin 30)) = [] := by
    rw [List.filter_eq_nil_iff]
    intro sc hsc
    obtain ⟨f, _, hf⟩ := mapE_ok_mem _ _ _ hscores sc hsc
    rw [scoreFragrance_intensityOnly p f x h hintensity] at hf
    simp only [Except.ok.injEq] at hf
    subst hf
    have hle := intensity_points_le f.intensity x
    simp only [JsNum.gt, decide_eq_true_eq, not_lt]
    linarith
  simp only [ruleBasedRecommendations, hscores, hfilter]

/-- C30 as stated fails. User 2 has sent `{ intensity: { valueOf: 1, toString: 1 } }`,
which is stored as it came. For the untouched client form of user 1 (a numeric intensity
and nothing else) the rule scorer returns the empty list, but the similarity computation
throws on the stored intensity, and `generateRecommendations` returns the fallback list of
three items, not the empty list. -/
theorem intensity_alone_reaches_fallback :
    afterObjectIntensity.model = none ∧ intensityOnly untouchedForm ∧
    untouchedForm.intensity = .num 50 ∧
    ruleBasedRecommendations afterObjectIntensity.fragranceDatabase (some untouchedForm)
      = .ok [] ∧
    (generateRecommendations afterObjectIntensity 1 (fun _ => 1 / 2) (some untouchedForm) 1
      none).1 = .ok (getFallbackRecommendations afterObjectIntensity (some 5)).1 ∧
    (getFallbackRecommendations afterObjectIntensity (some 5)).1.length = 3 ∧
    (generateRecommendations afterObjectIntensity 1 (fun _ => 1 / 2) (some untouchedForm) 1
      none).1 ≠ .ok [] := by
  refine ⟨generateRecommendations_model _ _ _ _ _ _, ⟨rfl, rfl, rfl, Or.inr rfl⟩, rfl,
    ?_, ?_, ?_, ?_⟩ <;> decide!

/-- C30 (amended): for every catalog and every query with a numeric intensity and no
season, no occasion, no price range and no favourite notes, every item's score is at most
15, below the filter threshold 30, so `ruleBasedRecommendations` returns the empty list; and
with no model loaded, when the latest stored query of every other user is typed,
`generateRecommendations` returns the empty list from the pipeline itself, not through the
fallback path, leaving the catalog as it was. -/
theorem intensity_alone_yields_nothing (s : Service) (now : Nat) (rnd : Nat → ℚ)
    (p : Preferences) (x : ℚ) (userId : UserId) (limit : Option Int)
    (hmodel : s.model = none) (h : intensityOnly p) (hintensity : p.intensity = .num x) :
    ruleBasedRecommendations s.fragranceDatabase (some p) = .ok [] ∧
    (∀ f ∈ s.fragranceDatabase, ∃ sc v, scoreFragrance (some p) f = .ok sc ∧
      sc.score = .fin v ∧ v ≤ 15) ∧
    (othersTyped s.userProfiles userId = true →
      pipeline (afterProfileUpdate s now userId (some p)) rnd (some p) userId (limit.getD 5)
        = .ok [] ∧
      (generateRecommendations s now rnd (some p) userId limit).1 = .ok [] ∧
      (generateRecommendations s now rnd (some p) userId limit).2.fragranceDatabase
        = s.fragranceDatabase) := by
  have hrule := ruleBasedRecommendations_intensityOnly s.fragranceDatabase p x h hintensity
  refine ⟨hrule, ?_, ?_⟩
  · intro f _
    exact ⟨_, _, scoreFragrance_intensityOnly p f x h hintensity, rfl,
      intensity_points_le f.intensity x⟩
  · intro hstore
    have htyped : p.typed = true := by
      unfold Preferences.typed
      rw [hintensity]
      rcases h.2.2.2 with hn | hn <;> rw [hn] <;> rfl
    obtain ⟨su, hsu⟩ := findSimilarUsers_after_update s.userProfiles now userId p htyped hstore
    have hsu1 : findSimilarUsers (afterProfileUpdate s now userId (some p)).userProfiles userId
        = .ok su := hsu
    have hpipe : pipeline (afterProfileUpdate s now userId (some p)) rnd (some p) userId
        (limit.getD 5) = .ok [] := by
      have hsc : scoreCandidates (afterProfileUpdate s now userId (some p)) (some p)
          = .ok [] := by
        simp only [scoreCandidates, afterProfileUpdate, hmodel]
        exact hrule
      simp only [pipeline, hsc, applyCollaborativeFiltering, hsu1, boostFrom, mapE, jsSort,
        List.insertionSort, slice0]
      split <;> rw [List.take_nil]
    refine ⟨hpipe, ?_, ?_⟩
    · rcases generateRecommendations_cases s now rnd (some p) userId limit with
        ⟨l, hl, hg⟩ | ⟨e, he, _⟩
      · rw [hpipe] at hl
        cases hl
        rw [hg]
      · rw [hpipe] at he
        cases he
    · exact catalog_unchanged_on_success s now rnd (some p) userId limit [] hpipe

/-- The untouched client form on a store that holds a typed query of another user: an
empty result, not the fallback. -/
theorem intensity_alone_yields_nothing_witness :
    ruleBasedRecommendations seededService.fragranceDatabase (some untouchedForm) = .ok [] ∧
    (∀ f ∈ seededService.fragranceDatabase, ∃ sc v,
      scoreFragrance (some untouchedForm) f = .ok sc ∧ sc.score = .fin v ∧ v ≤ 15) ∧
    pipeline (afterProfileUpdate seededService 0 1 (some untouchedForm)) (fun _ => 1 / 2)
      (some untouchedForm) 1 ((none : Option Int).getD 5) = .ok [] ∧
    (generateRecommendations seededService 0 (fun _ => 1 / 2) (some untouchedForm) 1
      none).1 = .ok [] ∧
    (generateRecommendations seededService 0 (fun _ => 1 / 2) (some untouchedForm) 1
      none).2.fragranceDatabase = seededService.fragranceDatabase :=
  (fun h => ⟨h.1, h.2.1, h.2.2 (by decide)⟩)
    (intensity_alone_yields_nothing seededService 0 (fun _ => 1 / 2) untouchedForm 50 1 none
      rfl ⟨rfl, rfl, rfl, Or.inr rfl⟩ rfl)

/-! ## What the occasion and note factors do compute -/

/-- The occasion factor as the code computes it: membership of the lower-cased occasion
with its first space replaced by an underscore. -/
theorem occasionFactor_eq (p : Preferences) (fragrance : Fragrance) (s : String)
    (hs : p.occasion = .str s) (hne : s ≠ "") :
    occasionFactor p fragrance
      = .ok (if strReplaceBlank (strLower s) ∈ fragrance.occasion then
          (20, ["Ideal for " ++ s]) else (0, [])) := by
  unfold occasionFactor
  rw [hs, if_pos (truthy_str s hne)]
  simp only [JsVal.toLowerCase, JsVal.interpolate]
  have : (⟨s.data.map Char.toLower⟩ : String) = strLower s := rfl
  rw [this]
  split <;> rfl

/-- The note factor is never negative, and it is at most 30 times the number of item
notes over the number of favourite notes. -/
theorem noteFactor_range (p : Preferences) (fragrance : Fragrance) (v : ℚ)
    (factors : List String) (h : noteFactor p fragrance = .ok (v, factors)) :
    0 ≤ v ∧ ∀ favs, p.favoriteNotes = .arr favs → favs ≠ [] →
      v ≤ (fragrance.notes.length : ℚ) / (favs.length : ℚ) * 30 := by
  have hfilter : ∀ (f : String → Except JsError Bool) (xs ys : List String),
      filterE f xs = .ok ys → ys.length ≤ xs.length := by
    intro f xs
    induction xs with
    | nil =>
      intro ys hys
      simp only [filterE, Except.ok.injEq] at hys
      subst hys
      exact le_refl _
    | cons a rest ih =>
      intro ys hys
      simp only [filterE] at hys
      split at hys
      · cases hys
      · split at hys
        · cases hys
        · rename_i keep _ _ bs hbs
          simp only [Except.ok.injEq] at hys
          subst hys
          have := ih bs hbs
          split
          · simp only [List.length_cons]
            omega
          · simp only [List.length_cons]
            omega
  unfold noteFactor at h
  cases hn : p.favoriteNotes with
  | absent =>
    rw [hn] at h
    simp only [Except.ok.injEq, Prod.mk.injEq] at h
    refine ⟨by rw [← h.1], ?_⟩
    intro favs hfavs
    cases hfavs
  | nonArray =>
    rw [hn] at h
    simp only [Except.ok.injEq, Prod.mk.injEq] at h
    refine ⟨by rw [← h.1], ?_⟩
    intro favs hfavs
    cases hfavs
  | arr favs0 =>
    rw [hn] at h
    dsimp only at h
    split at h
    · rename_i hlen
      split at h
      · cases h
      · rename_i matching hmatching
        simp only [Except.ok.injEq, Prod.mk.injEq] at h
        have hpos : (0 : ℚ) < (favs0.length : ℚ) := by exact_mod_cast hlen
        have hle : (matching.length : ℚ) ≤ (fragrance.notes.length : ℚ) := by
          exact_mod_cast hfilter _ _ _ hmatching
        constructor
        · rw [← h.1]
          positivity
        · intro favs hfavs _
          cases hfavs
          rw [← h.1]
          have := div_le_div_of_nonneg_right hle (le_of_lt hpos)
          linarith
    · simp only [Except.ok.injEq, Prod.mk.injEq] at h
      refine ⟨by rw [← h.1], ?_⟩
      intro favs hfavs hne
      cases hfavs
      rename_i hlen
      exact absurd (List.length_pos.mpr hne) hlen

end Sugi
